import Mathlib

/-!
# Narrow-phase collision detection of asteroids-redux

A shallow embedding of `Source/Actor/CollisionShape.cpp`.

* Numbers are the elements of a linear ordered field `K` with a floor function:
  exact arithmetic, the reals being the intended instance. The definitions are
  computable; they run on the rationals once an `Env` is given. The literal
  `0.1f` is the number `1 / 10`.
* The maths helpers the file calls but does not define (`sqrt`, `cos`, `sin`,
  the constants `WORLD_WIDTH` and `WORLD_HEIGHT`) are the fields of `Env`; the
  vector helpers (`Dot`, `Normalize`, `WrapVector2`, ...) are modelled from the
  spec and marked so.
* A read outside a vector, a remainder modulo zero and `mtds[0]` on an empty
  vector are undefined behaviour in C++; the embedding returns `none` there,
  and also where a loop never ends.
* `size_t` has 64 bits and `unsigned int` 32. The loops that count with `size_t`
  never wrap their counter; the second projection loop counts with
  `unsigned int` against a `size_t` bound, and its counter wraps.
* `self` and `shape` are two distinct objects (no aliasing).
-/

namespace Asteroids

/-- Two-component vector of the game's maths library (`Vector2`). -/
@[ext] structure Vector2 (K : Type) where
  x : K
  y : K
  deriving DecidableEq

/-- Placement of a shape, `World(pos, scale, rot)`. -/
structure World (K : Type) where
  pos : Vector2 K
  scale : Vector2 K
  rot : K

/-- Data members of `CollisionShape`. -/
structure CollisionShape (K : Type) where
  points : List (Vector2 K)
  world : World K
  wrapAround : Bool

/-- Scalar library functions and the constants of `Globals.h`, none of which is
defined in the translated file; they are parameters of the embedding. -/
structure Env (K : Type) where
  sqrt : K → K
  cos : K → K
  sin : K → K
  WORLD_WIDTH : K
  WORLD_HEIGHT : K

/-- What one pass of the edge loop of `CheckPointListSeperability` does with an
edge: leave through `return true`, or push a vector on `mtds`. -/
inductive AxisOutcome (K : Type) where
  | separable : AxisOutcome K
  | candidate : Vector2 K → AxisOutcome K

/-- Everything a call of `CheckCollision` leaves behind: the returned flag, the
out-parameter and the two shapes. -/
structure CollisionResult (K : Type) where
  ret : Bool
  outResolution : Vector2 K
  self : CollisionShape K
  shape : CollisionShape K

section Embedding

variable {K : Type} [LinearOrderedField K]

/-- The operator `a + b` of `Vector2`. -/
def Vector2.add (a b : Vector2 K) : Vector2 K := ⟨a.x + b.x, a.y + b.y⟩

/-- The operator `a - b` of `Vector2`. -/
def Vector2.sub (a b : Vector2 K) : Vector2 K := ⟨a.x - b.x, a.y - b.y⟩

/-- The operator `-a` of `Vector2`. -/
def Vector2.neg (a : Vector2 K) : Vector2 K := ⟨-a.x, -a.y⟩

/-- The operator `v * s` of `Vector2` (vector times scalar). -/
def Vector2.mul (v : Vector2 K) (s : K) : Vector2 K := ⟨v.x * s, v.y * s⟩

/-- Modelled from the spec: `Dot` is not in the translated file; the dot product
of the spec's `Point2`. -/
def Dot (a b : Vector2 K) : K := a.x * b.x + a.y * b.y

/-- Modelled from the spec: `LengthSquared` is not in the translated file; the
squared Euclidean length. -/
def LengthSquared (v : Vector2 K) : K := v.x * v.x + v.y * v.y

/-- Modelled from the spec: `Vector2::Length` is not in the translated file; the
square root of the squared length. -/
def Length (E : Env K) (v : Vector2 K) : K := E.sqrt (LengthSquared v)

/-- Modelled from the spec: `Normalize` is not in the translated file; it divides
both components by the length. -/
def Normalize (E : Env K) (v : Vector2 K) : Vector2 K :=
  ⟨v.x / Length E v, v.y / Length E v⟩

/-- Modelled from the spec: `scalerProject` is not in the translated file; the
projection of a vertex on the axis "via dot product". -/
def scalerProject (axis p : Vector2 K) : K := Dot axis p

/-- Modelled from the spec: `distanceBetween` is not in the translated file; the
length of the difference. -/
def distanceBetween (E : Env K) (a b : Vector2 K) : K := Length E (a.sub b)

/-- Modelled from the spec: `distanceSquared` is not in the translated file; the
squared length of the difference. -/
def distanceSquared (a b : Vector2 K) : K := LengthSquared (a.sub b)

/-- The eight translations by plus or minus the width and the height. -/
def wrapOffsets (w h : K) : List (Vector2 K) :=
  [⟨w, 0⟩, ⟨-w, 0⟩, ⟨0, h⟩, ⟨0, -h⟩, ⟨w, h⟩, ⟨w, -h⟩, ⟨-w, h⟩, ⟨-w, -h⟩]

/-- Modelled from the spec: `GetShortestWrappedDistance` is not in the translated
file. Among the nine images of `dst` (the original and the eight translations)
the displacement from `src` of smallest length, the first one on a tie. -/
def GetShortestWrappedDistance (E : Env K) (src dst : Vector2 K) (w h : K) : Vector2 K :=
  (wrapOffsets w h).foldl
    (fun best off =>
      if Length E ((dst.add off).sub src) < Length E best then (dst.add off).sub src else best)
    (dst.sub src)

/-- Reduction of one coordinate modulo `size` into `[0, size)`. -/
def wrapCoord [FloorRing K] (size v : K) : K := v - size * ((⌊v / size⌋ : ℤ) : K)

/-- Modelled from the spec: `WrapVector2` is not in the translated file. It
reduces the point into `[0,width) × [0,height)` by a modulo on each axis. -/
def WrapVector2 [FloorRing K] (w h : K) (v : Vector2 K) : Vector2 K :=
  ⟨wrapCoord w v.x, wrapCoord h v.y⟩

/-- Modelled from the spec: `World::TransformPoint` is not in the translated file.
Scale, then rotation by `rot`, then translation by `pos`. -/
def World.TransformPoint (E : Env K) (wld : World K) (p : Vector2 K) : Vector2 K :=
  Vector2.add
    ⟨wld.scale.x * p.x * E.cos wld.rot - wld.scale.y * p.y * E.sin wld.rot,
     wld.scale.x * p.x * E.sin wld.rot + wld.scale.y * p.y * E.cos wld.rot⟩
    wld.pos

/-- Method `CollisionShape::Initialize`: clears `points` and assigns the new list.
The C++ function returns `void` and has no failure path. -/
def CollisionShape.Initialize (s : CollisionShape K) (newPoints : List (Vector2 K)) :
    CollisionShape K :=
  { s with points := newPoints }

/-- Method `CollisionShape::SetWorld`. -/
def CollisionShape.SetWorld (s : CollisionShape K) (newWorld : World K) : CollisionShape K :=
  { s with world := newWorld }

/-- Method `CollisionShape::GetTransformedPoints`. -/
def CollisionShape.GetTransformedPoints (E : Env K) (s : CollisionShape K) :
    List (Vector2 K) :=
  s.points.map (s.world.TransformPoint E)

/-- The value of `p.size() - 1` in `size_t` arithmetic (64 bits): the subtraction
wraps to `2 ^ 64 - 1` on an empty vector. -/
def sizeMinusOne (n : Nat) : Nat := if n = 0 then 2 ^ 64 - 1 else (n - 1) % 2 ^ 64

/-- The edge vector turned into the axis: `Vector2(seperator.y, -seperator.x)`. -/
def perp (v : Vector2 K) : Vector2 K := ⟨v.y, -v.x⟩

/-- The first projection loop `for (size_t j = 1; j < p1.size() - 1; j++)`:
`count` passes are left, `j` is the index read next. -/
def projLoop (sep : Vector2 K) (p : List (Vector2 K)) : Nat → Nat → K → K → Option (K × K)
  | 0, _, tMax, tMin => some (tMax, tMin)
  | count + 1, j, tMax, tMin =>
    match p[j]? with
    | none => none
    | some v =>
      if scalerProject sep v > tMax then
        projLoop sep p count (j + 1) (scalerProject sep v) tMin
      else if scalerProject sep v < tMin then
        projLoop sep p count (j + 1) tMax (scalerProject sep v)
      else projLoop sep p count (j + 1) tMax tMin

/-- Maximum and minimum of the projections of `p1` as the code computes them:
start from `p1[0]`, then run the loop over `1 ≤ j < p1.size() - 1`. -/
def projExtent (sep : Vector2 K) (p : List (Vector2 K)) : Option (K × K) :=
  match p[0]? with
  | none => none
  | some v0 =>
    projLoop sep p (sizeMinusOne p.length - 1) 1 (scalerProject sep v0) (scalerProject sep v0)

/-- The second projection loop `for (unsigned int j = 1; j < p2.size() - 1; j++)`.
The counter `j` has 32 bits, so `j++` gives `(j + 1) % 2 ^ 32`, and the test
compares it with the 64-bit value `bound` of `p2.size() - 1`. The first argument
is fuel, the number of passes the loop may still make: `none` is a read outside
the vector, or a loop that has not ended when the fuel is used up. -/
def projLoopUInt (sep : Vector2 K) (p : List (Vector2 K)) (bound : Nat) :
    Nat → Nat → K → K → Option (K × K)
  | 0, j, tMax, tMin => if j < bound then none else some (tMax, tMin)
  | fuel + 1, j, tMax, tMin =>
    if j < bound then
      match p[j]? with
      | none => none
      | some v =>
        if scalerProject sep v > tMax then
          projLoopUInt sep p bound fuel ((j + 1) % 2 ^ 32) (scalerProject sep v) tMin
        else if scalerProject sep v < tMin then
          projLoopUInt sep p bound fuel ((j + 1) % 2 ^ 32) tMax (scalerProject sep v)
        else projLoopUInt sep p bound fuel ((j + 1) % 2 ^ 32) tMax tMin
    else some (tMax, tMin)

/-- Maximum and minimum of the projections of `p2` as the code computes them:
start from `p2[0]`, then run the loop with the `unsigned int` counter. The fuel
`p2.size() - 1` is enough for every loop that ends: a counter that does not wrap
reaches the bound in fewer passes, and a counter that wraps stays below
`2 ^ 32`, so below the bound, for ever (`projLoopUInt_never_ends`). -/
def projExtentUInt (sep : Vector2 K) (p : List (Vector2 K)) : Option (K × K) :=
  match p[0]? with
  | none => none
  | some v0 =>
    projLoopUInt sep p (sizeMinusOne p.length) (sizeMinusOne p.length) 1
      (scalerProject sep v0) (scalerProject sep v0)

/-- Body of the edge loop of `CheckPointListSeperability` for the index `i`. -/
def axisStep (E : Env K) (p1 p2 : List (Vector2 K)) (i : Nat) : Option (AxisOutcome K) :=
  if sizeMinusOne p1.length = 0 then none
  else
    match p1[i]?, p1[(i + 1) % sizeMinusOne p1.length]? with
    | some a, some b =>
      match projExtent (Normalize E (perp (a.sub b))) p1,
            projExtentUInt (Normalize E (perp (a.sub b))) p2 with
      | some (t1Max, t1Min), some (t2Max, t2Min) =>
        if t1Min > t2Max ∨ t2Min > t1Max then some AxisOutcome.separable
        else
          some (AxisOutcome.candidate
            ((Normalize E (perp (a.sub b))).mul
              (if t1Max - t2Min < t2Max - t1Min then t1Max - t2Min else t2Max - t1Min)))
      | _, _ => none
    | _, _ => none

/-- The edge loop `for (i = 0; i < p1.size() - 1; i++)`: `count` passes are left,
`i` is the current index, `mtds` the vectors pushed so far. The flag of the
result says whether the loop left through `return true`. -/
def edgeLoop (E : Env K) (p1 p2 : List (Vector2 K)) :
    Nat → Nat → List (Vector2 K) → Option (Bool × List (Vector2 K))
  | 0, _, mtds => some (false, mtds)
  | count + 1, i, mtds =>
    match axisStep E p1 p2 i with
    | none => none
    | some AxisOutcome.separable => some (true, mtds)
    | some (AxisOutcome.candidate m) => edgeLoop E p1 p2 count (i + 1) (mtds ++ [m])

/-- The final loop of `CheckPointListSeperability` over `mtds[1..]`. -/
def minLoop (outMtd : Vector2 K) (rest : List (Vector2 K)) : Vector2 K :=
  rest.foldl (fun out m => if LengthSquared m < LengthSquared out then m else out) outMtd

/-- Method `CollisionShape::CheckPointListSeperability`. The result is the returned
flag and the value of `outMtd` after the call. -/
def CheckPointListSeperability (E : Env K) (p1 p2 : List (Vector2 K)) (outMtd : Vector2 K) :
    Option (Bool × Vector2 K) :=
  match edgeLoop E p1 p2 (sizeMinusOne p1.length) 0 [] with
  | none => none
  | some (true, _) => some (true, outMtd)
  | some (false, []) => none
  | some (false, m0 :: rest) => some (false, minLoop m0 rest)

/-- Method `CollisionShape::RestorePosition`; `wrapAround` is the member of the
object the method is called on. -/
def RestorePosition [FloorRing K] (E : Env K) (wrapAround : Bool)
    (moveDistance outPosition : Vector2 K) : Vector2 K :=
  if distanceSquared moveDistance ⟨0, 0⟩ ≠ 0 then
    if wrapAround then WrapVector2 E.WORLD_WIDTH E.WORLD_HEIGHT (outPosition.add moveDistance)
    else outPosition.add moveDistance
  else outPosition

/-- The test `abs(wrapped - distance) > 0.1f` of `CheckCollision`. -/
def needsMove (E : Env K) (self shape : CollisionShape K) : Bool :=
  decide (|Length E
      (if self.wrapAround then
        GetShortestWrappedDistance E shape.world.pos self.world.pos E.WORLD_WIDTH E.WORLD_HEIGHT
      else shape.world.pos.sub self.world.pos)
    - distanceBetween E shape.world.pos self.world.pos| > 1 / 10)

/-- The value of `moveDistance` after the first block of `CheckCollision`. -/
def moveDistanceOf (E : Env K) (self shape : CollisionShape K) : Vector2 K :=
  if needsMove E self shape then self.world.pos else ⟨0, 0⟩

/-- The object `*this` after the first block of `CheckCollision`. -/
def movedSelf (E : Env K) (self shape : CollisionShape K) : CollisionShape K :=
  if needsMove E self shape then
    { self with world := { self.world with pos := self.world.pos.sub self.world.pos } }
  else self

/-- The object `shape` after the first block of `CheckCollision`. -/
def movedShape [FloorRing K] (E : Env K) (self shape : CollisionShape K) :
    CollisionShape K :=
  if needsMove E self shape then
    { shape with world := { shape.world with
        pos := WrapVector2 E.WORLD_WIDTH E.WORLD_HEIGHT (shape.world.pos.sub self.world.pos) } }
  else shape

/-- The two calls of `RestorePosition` that precede every `return`. -/
def restoreBoth [FloorRing K] (E : Env K) (moveDistance : Vector2 K)
    (self shape : CollisionShape K) (ret : Bool) (outResolution : Vector2 K) :
    CollisionResult K :=
  { ret := ret
    outResolution := outResolution
    self := { self with world := { self.world with
      pos := RestorePosition E self.wrapAround moveDistance self.world.pos } }
    shape := { shape with world := { shape.world with
      pos := RestorePosition E self.wrapAround moveDistance shape.world.pos } } }

/-- The vector `mtd1` after the selection and the orientation test. -/
def orientMtd (self shape : CollisionShape K) (mtd1 mtd2 : Vector2 K) : Vector2 K :=
  if LengthSquared (if LengthSquared mtd1 < LengthSquared mtd2 then mtd1 else mtd2) > 0 then
    if Dot (if LengthSquared mtd1 < LengthSquared mtd2 then mtd1 else mtd2)
        (self.world.pos.sub shape.world.pos) < 0 then
      (if LengthSquared mtd1 < LengthSquared mtd2 then mtd1 else mtd2).neg
    else (if LengthSquared mtd1 < LengthSquared mtd2 then mtd1 else mtd2)
  else (if LengthSquared mtd1 < LengthSquared mtd2 then mtd1 else mtd2)

/-- Method `CollisionShape::CheckCollision`, called on `self` with the argument
`shape`; `outResolution` is the value of the out-parameter before the call. -/
def CheckCollision [FloorRing K] (E : Env K) (self shape : CollisionShape K)
    (outResolution : Vector2 K) : Option (CollisionResult K) :=
  match CheckPointListSeperability E
      ((movedSelf E self shape).GetTransformedPoints E)
      ((movedShape E self shape).GetTransformedPoints E) ⟨0, 0⟩ with
  | none => none
  | some (true, _) =>
    some (restoreBoth E (moveDistanceOf E self shape)
      (movedSelf E self shape) (movedShape E self shape) false outResolution)
  | some (false, mtd1) =>
    match CheckPointListSeperability E
        ((movedShape E self shape).GetTransformedPoints E)
        ((movedSelf E self shape).GetTransformedPoints E) ⟨0, 0⟩ with
    | none => none
    | some (true, _) =>
      some (restoreBoth E (moveDistanceOf E self shape)
        (movedSelf E self shape) (movedShape E self shape) false outResolution)
    | some (false, mtd2) =>
      some (restoreBoth E (moveDistanceOf E self shape)
        (movedSelf E self shape) (movedShape E self shape) true
        (orientMtd (movedSelf E self shape) (movedShape E self shape) mtd1 mtd2))

end Embedding

/-! ## Reference notions the theorems compare the code with -/

section Reference

variable {K : Type} [LinearOrderedField K]

/-- Largest projection of the vertices of a list on an axis (`0` for no vertex). -/
def maxProj (axis : Vector2 K) : List (Vector2 K) → K
  | [] => 0
  | v :: vs => vs.foldl (fun m u => max m (scalerProject axis u)) (scalerProject axis v)

/-- Smallest projection of the vertices of a list on an axis (`0` for no vertex). -/
def minProj (axis : Vector2 K) : List (Vector2 K) → K
  | [] => 0
  | v :: vs => vs.foldl (fun m u => min m (scalerProject axis u)) (scalerProject axis v)

/-- The vertices the projection loops read: `p[0]`, then `p[j]` for
`1 ≤ j < p.size() - 1`; for two vertices or more, all but the last one. -/
def seenVertices (p : List (Vector2 K)) : List (Vector2 K) :=
  p.take (max 1 (p.length - 1))

/-- The two projection intervals do not meet. -/
def intervalsApart (axis : Vector2 K) (q1 q2 : List (Vector2 K)) : Prop :=
  minProj axis q1 > maxProj axis q2 ∨ minProj axis q2 > maxProj axis q1

/-- The candidate `axis * min(max1 - min2, max2 - min1)`. -/
def candidateOn (axis : Vector2 K) (q1 q2 : List (Vector2 K)) : Vector2 K :=
  axis.mul (min (maxProj axis q1 - minProj axis q2) (maxProj axis q2 - minProj axis q1))

/-- Deciding `intervalsApart` is comparing four numbers. -/
instance intervalsApartDecidable (axis : Vector2 K) (q1 q2 : List (Vector2 K)) :
    Decidable (intervalsApart axis q1 q2) := by
  unfold intervalsApart; infer_instance

/-- The edge loop over a list of axes: stop at the first axis on which the
projection intervals are apart, else push the candidate and go on. -/
def scanAxes (q1 q2 : List (Vector2 K)) :
    List (Vector2 K) → List (Vector2 K) → Bool × List (Vector2 K)
  | [], mtds => (false, mtds)
  | a :: as, mtds =>
    if intervalsApart a q1 q2 then (true, mtds)
    else scanAxes q1 q2 as (mtds ++ [candidateOn a q1 q2])

/-- Edge `i` of the closed polygon `q` (vertex `i` minus vertex `i + 1`, the last
vertex joining back to vertex 0), turned by a quarter: `(dy, -dx)`. -/
def edgeNormal (q : List (Vector2 K)) (i : Nat) : Vector2 K :=
  perp ((q.getD i ⟨0, 0⟩).sub (q.getD ((i + 1) % q.length) ⟨0, 0⟩))

/-- The normals of all edges of the closed polygon `q`. -/
def edgeNormals (q : List (Vector2 K)) : List (Vector2 K) :=
  (List.range q.length).map (edgeNormal q)

/-- The normalised normals of all edges of the closed polygon `q`. -/
def unitNormals (E : Env K) (q : List (Vector2 K)) : List (Vector2 K) :=
  (edgeNormals q).map (Normalize E)

/-- The candidates `axis_i * min(max1_i - min2_i, max2_i - min1_i)`, one for each
edge `i < p1.size() - 1`, the extrema taken over the vertices the loops read. -/
def recordedCandidates (E : Env K) (p1 p2 : List (Vector2 K)) : List (Vector2 K) :=
  (unitNormals E p1.dropLast).map
    (fun a => candidateOn a (seenVertices p1) (seenVertices p2))

/-- An axis separates two vertex sets: on the axis every projection of the one
set lies strictly on one side of every projection of the other. -/
def Separates (axis : Vector2 K) (q1 q2 : List (Vector2 K)) : Prop :=
  (∀ a ∈ q1, ∀ b ∈ q2, Dot axis a < Dot axis b) ∨
  (∀ a ∈ q1, ∀ b ∈ q2, Dot axis b < Dot axis a)

/-- Deciding `Separates` on two lists is comparing finitely many numbers. -/
instance separatesDecidable (axis : Vector2 K) (q1 q2 : List (Vector2 K)) :
    Decidable (Separates axis q1 q2) := by
  unfold Separates; infer_instance

/-- The square root of `Env` is one on the positive numbers. -/
def SqrtSound (E : Env K) : Prop :=
  ∀ x : K, 0 < x → 0 < E.sqrt x ∧ E.sqrt x * E.sqrt x = x

/-- A vector's length fits the type `size_t`. -/
def FitsSizeT (p : List (Vector2 K)) : Prop := p.length < 2 ^ 64

/-- The bound `p.size() - 1` of the second projection loop fits its
`unsigned int` counter: the vector has at most `2 ^ 32` elements. -/
def FitsUInt (p : List (Vector2 K)) : Prop := p.length ≤ 2 ^ 32

/-- A point of the domain `[0,WORLD_WIDTH) × [0,WORLD_HEIGHT)`. -/
def InDomain (E : Env K) (v : Vector2 K) : Prop :=
  0 ≤ v.x ∧ v.x < E.WORLD_WIDTH ∧ 0 ≤ v.y ∧ v.y < E.WORLD_HEIGHT

end Reference

/-! ## The spec's `setGeometry`, and concrete shapes -/

/-- The error kinds of the spec (§7). -/
inductive GeometryError where
  | InvalidGeometry : GeometryError
  | DegenerateAxis : GeometryError

section Data

variable {K : Type} [LinearOrderedField K]

/-- The operation `setGeometry` as the spec words it: it fails with
`InvalidGeometry` on fewer than 3 points and replaces the polygon otherwise. -/
def setGeometry (s : CollisionShape K) (points : List (Vector2 K)) :
    Except GeometryError (CollisionShape K) :=
  if points.length < 3 then Except.error GeometryError.InvalidGeometry
  else Except.ok { s with points := points }

/-- A placement at `pos` with identity rotation and scale. -/
def placedAt (pos : Vector2 K) : World K := ⟨pos, ⟨1, 1⟩, 0⟩

/-- A shape as the constructor leaves it (`wrapAround(true)`, no point), placed
at the origin. -/
def freshShape : CollisionShape K := ⟨[], placedAt ⟨0, 0⟩, true⟩

/-- The triangle `(0,0), (1,0), (0,1)`. -/
def triangleA : List (Vector2 K) := [⟨0, 0⟩, ⟨1, 0⟩, ⟨0, 1⟩]

/-- The triangle `(0,5), (1,5), (1/4,1/4)`; its last vertex lies inside `triangleA`. -/
def triangleB : List (Vector2 K) := [⟨0, 5⟩, ⟨1, 5⟩, ⟨1 / 4, 1 / 4⟩]

/-- The four corners of the axis-aligned unit square centred at the origin. -/
def unitSquare : List (Vector2 K) :=
  [⟨-1 / 2, -1 / 2⟩, ⟨1 / 2, -1 / 2⟩, ⟨1 / 2, 1 / 2⟩, ⟨-1 / 2, 1 / 2⟩]

/-- The unit square as a closed outline: the four corners, then the first again. -/
def unitSquareClosed : List (Vector2 K) :=
  [⟨-1 / 2, -1 / 2⟩, ⟨1 / 2, -1 / 2⟩, ⟨1 / 2, 1 / 2⟩, ⟨-1 / 2, 1 / 2⟩, ⟨-1 / 2, -1 / 2⟩]

/-- A flat polygon along the x-axis, `(-3,0), (3,0), (0,1)`. -/
def barH : List (Vector2 K) := [⟨-3, 0⟩, ⟨3, 0⟩, ⟨0, 1⟩]

/-- A flat polygon along the y-axis, `(0,-3), (0,3), (1,0)`. -/
def barV : List (Vector2 K) := [⟨0, -3⟩, ⟨0, 3⟩, ⟨1, 0⟩]

/-- A vertex list of `2 ^ 32 + 1` elements: its `size() - 1` is `2 ^ 32`, one more
than the largest value of an `unsigned int`. -/
def longList : List (Vector2 K) := List.replicate (2 ^ 32 + 1) ⟨0, 0⟩

end Data

/-! ## The separation test without square roots -/

section RawDefs

variable {K : Type} [LinearOrderedField K]

/-- The candidate of an axis given by a normal `r` that is not normalised:
`r * (min(max1 - min2, max2 - min1) / |r|²)`, the extrema taken along `r`. -/
def rawCandidate (r : Vector2 K) (q1 q2 : List (Vector2 K)) : Vector2 K :=
  r.mul (min (maxProj r q1 - minProj r q2) (maxProj r q2 - minProj r q1) / LengthSquared r)

/-- The edge loop over the normals themselves (not normalised). -/
def scanRaw (q1 q2 : List (Vector2 K)) :
    List (Vector2 K) → List (Vector2 K) → Bool × List (Vector2 K)
  | [], mtds => (false, mtds)
  | r :: rs, mtds =>
    if intervalsApart r q1 q2 then (true, mtds)
    else scanRaw q1 q2 rs (mtds ++ [rawCandidate r q1 q2])

/-- A vector of rationals read in the field `K`. -/
def Vector2.ofRat (v : Vector2 ℚ) : Vector2 K := ⟨(v.x : K), (v.y : K)⟩

/-- `CheckPointListSeperability` computed without a square root. -/
def satRaw (p1 p2 : List (Vector2 K)) (outMtd : Vector2 K) : Option (Bool × Vector2 K) :=
  match scanRaw (seenVertices p1) (seenVertices p2) (edgeNormals p1.dropLast) [] with
  | (true, _) => some (true, outMtd)
  | (false, []) => none
  | (false, m0 :: rest) => some (false, minLoop m0 rest)

end RawDefs

/-! ## The shapes of the concrete calls -/

section Shapes

variable {K : Type} [LinearOrderedField K]

/-- The triangle `triangleA` at the origin, `wrapAround` off. -/
def triA : CollisionShape K := ⟨triangleA, placedAt ⟨0, 0⟩, false⟩

/-- The triangle `triangleB` at the origin, `wrapAround` off. -/
def triB : CollisionShape K := ⟨triangleB, placedAt ⟨0, 0⟩, false⟩

/-- The triangle `triangleA` at `(10, 0)`, `wrapAround` on. -/
def triNear : CollisionShape K := ⟨triangleA, placedAt ⟨10, 0⟩, true⟩

/-- The triangle `triangleA` at `(150, 0)`, outside a world of 100 by 100. -/
def triFar : CollisionShape K := ⟨triangleA, placedAt ⟨150, 0⟩, true⟩

/-- The bar `barH` at `(99, 99)`, `wrapAround` on. -/
def barSelf : CollisionShape K := ⟨barH, placedAt ⟨99, 99⟩, true⟩

/-- The bar `barV` at `(1, 1)` with the given `wrapAround` flag. -/
def barOther (w : Bool) : CollisionShape K := ⟨barV, placedAt ⟨1, 1⟩, w⟩

/-- The unit square (four corners) at `pos`, `wrapAround` on. -/
def squareAt (pos : Vector2 K) : CollisionShape K := ⟨unitSquare, placedAt pos, true⟩

/-- The unit square as a closed outline (five points) at `pos`. -/
def closedSquareAt (pos : Vector2 K) (w : Bool) : CollisionShape K :=
  ⟨unitSquareClosed, placedAt pos, w⟩

end Shapes

/-! ## The loops of `CheckPointListSeperability` in closed form -/

section Loops

variable {K : Type} [LinearOrderedField K]

theorem sizeMinusOne_of_pos {n : Nat} (h0 : 0 < n) (h : n < 2 ^ 64) :
    sizeMinusOne n = n - 1 := by
  unfold sizeMinusOne
  rw [if_neg (by omega), Nat.mod_eq_of_lt (by omega)]

omit [LinearOrderedField K] in
theorem seenVertices_eq_dropLast (p : List (Vector2 K)) (h : 2 ≤ p.length) :
    seenVertices p = p.dropLast := by
  unfold seenVertices
  rw [List.dropLast_eq_take, max_eq_right (by omega)]

theorem projLoop_eq (sep : Vector2 K) (p : List (Vector2 K)) :
    ∀ (count j : Nat) (tMax tMin : K), tMin ≤ tMax → j + count ≤ p.length →
      projLoop sep p count j tMax tMin =
        some (((p.drop j).take count).foldl (fun m u => max m (scalerProject sep u)) tMax,
              ((p.drop j).take count).foldl (fun m u => min m (scalerProject sep u)) tMin) := by
  intro count
  induction count with
  | zero => intro j tMax tMin _ _; simp [projLoop]
  | succ c ih =>
    intro j tMax tMin hle hj
    have hlt : j < p.length := by omega
    have hnext : j + 1 + c ≤ p.length := by omega
    rw [List.drop_eq_getElem_cons hlt, List.take_succ_cons, List.foldl_cons, List.foldl_cons]
    unfold projLoop
    rw [List.getElem?_eq_getElem hlt]
    simp only []
    by_cases h1 : scalerProject sep p[j] > tMax
    · rw [if_pos h1, ih (j + 1) _ _ (le_trans hle (le_of_lt h1)) hnext,
        max_eq_right (le_of_lt h1), min_eq_left (le_trans hle (le_of_lt h1))]
    · rw [if_neg h1]
      have h1' : scalerProject sep p[j] ≤ tMax := not_lt.mp h1
      by_cases h2 : scalerProject sep p[j] < tMin
      · rw [if_pos h2, ih (j + 1) _ _ (le_trans (le_of_lt h2) hle) hnext,
          max_eq_left h1', min_eq_right (le_of_lt h2)]
      · rw [if_neg h2, ih (j + 1) _ _ hle hnext, max_eq_left h1', min_eq_left (not_lt.mp h2)]

theorem projExtent_eq (sep : Vector2 K) (p : List (Vector2 K)) (h1 : 1 ≤ p.length)
    (hf : FitsSizeT p) :
    projExtent sep p = some (maxProj sep (seenVertices p), minProj sep (seenVertices p)) := by
  unfold FitsSizeT at hf
  unfold projExtent seenVertices
  rw [sizeMinusOne_of_pos (by omega) hf]
  cases p with
  | nil => simp at h1
  | cons v vs =>
    simp only [List.length_cons, List.getElem?_cons_zero, Nat.add_sub_cancel]
    rw [projLoop_eq sep (v :: vs) (vs.length - 1) 1 _ _ (le_refl _)
      (by simp only [List.length_cons]; omega)]
    rcases Nat.eq_zero_or_pos vs.length with h0 | hpos
    · simp [h0, maxProj, minProj]
    · obtain ⟨m, hm⟩ : ∃ m, vs.length = m + 1 := ⟨vs.length - 1, by omega⟩
      simp [hm, maxProj, minProj]

omit [LinearOrderedField K] in
theorem FitsUInt.fitsSizeT {p : List (Vector2 K)} (h : FitsUInt p) : FitsSizeT p := by
  unfold FitsUInt at h
  unfold FitsSizeT
  omega

/-- With a bound below `2 ^ 32` the counter of the second projection loop never
wraps: the loop makes the passes of a loop with an unbounded counter, and any
fuel of at least `bound - j` passes sees it end. -/
theorem projLoopUInt_eq_projLoop (sep : Vector2 K) (p : List (Vector2 K)) (bound : Nat)
    (hb : bound < 2 ^ 32) :
    ∀ (fuel j : Nat) (tMax tMin : K), bound - j ≤ fuel →
      projLoopUInt sep p bound fuel j tMax tMin = projLoop sep p (bound - j) j tMax tMin := by
  intro fuel
  induction fuel with
  | zero =>
    intro j tMax tMin h
    have h0 : bound - j = 0 := by omega
    unfold projLoopUInt
    rw [if_neg (by omega), h0]
    rfl
  | succ f ih =>
    intro j tMax tMin h
    unfold projLoopUInt
    by_cases hj : j < bound
    · have hs : bound - j = (bound - (j + 1)) + 1 := by omega
      have hmod : (j + 1) % 2 ^ 32 = j + 1 := Nat.mod_eq_of_lt (by omega)
      rw [if_pos hj, hs, hmod]
      unfold projLoop
      cases p[j]? with
      | none => rfl
      | some v =>
        simp only []
        rw [ih (j + 1) _ _ (by omega), ih (j + 1) _ _ (by omega), ih (j + 1) _ _ (by omega)]
    · have h0 : bound - j = 0 := by omega
      rw [if_neg hj, h0]
      rfl

/-- With a bound of `2 ^ 32` or more the second projection loop never ends: the
counter stays below `2 ^ 32`, so below the bound, whatever the fuel. -/
theorem projLoopUInt_never_ends (sep : Vector2 K) (p : List (Vector2 K)) (bound : Nat)
    (hb : 2 ^ 32 ≤ bound) :
    ∀ (fuel j : Nat) (tMax tMin : K), j < 2 ^ 32 →
      projLoopUInt sep p bound fuel j tMax tMin = none := by
  intro fuel
  induction fuel with
  | zero =>
    intro j tMax tMin hj
    unfold projLoopUInt
    rw [if_pos (by omega)]
  | succ f ih =>
    intro j tMax tMin hj
    have hmod : (j + 1) % 2 ^ 32 < 2 ^ 32 := Nat.mod_lt _ (by omega)
    unfold projLoopUInt
    rw [if_pos (by omega)]
    cases p[j]? with
    | none => rfl
    | some v =>
      simp only []
      rw [ih _ _ _ hmod, ih _ _ _ hmod, ih _ _ _ hmod]
      simp

theorem projExtentUInt_eq_projExtent (sep : Vector2 K) (p : List (Vector2 K))
    (h1 : 1 ≤ p.length) (hf : FitsUInt p) :
    projExtentUInt sep p = projExtent sep p := by
  unfold FitsUInt at hf
  unfold projExtentUInt projExtent
  rw [sizeMinusOne_of_pos (by omega) (by omega)]
  cases p[0]? with
  | none => rfl
  | some v0 =>
    simp only []
    exact projLoopUInt_eq_projLoop sep p (p.length - 1) (by omega) _ 1 _ _ (by omega)

theorem projExtentUInt_eq (sep : Vector2 K) (p : List (Vector2 K)) (h1 : 1 ≤ p.length)
    (hf : FitsUInt p) :
    projExtentUInt sep p = some (maxProj sep (seenVertices p), minProj sep (seenVertices p)) := by
  rw [projExtentUInt_eq_projExtent sep p h1 hf, projExtent_eq sep p h1 hf.fitsSizeT]

/-- For a vector of more than `2 ^ 32` elements the second projection loop never
ends. -/
theorem projExtentUInt_long (sep : Vector2 K) (p : List (Vector2 K))
    (hlong : ¬ FitsUInt p) (hf : FitsSizeT p) :
    projExtentUInt sep p = none := by
  unfold FitsUInt at hlong
  unfold FitsSizeT at hf
  unfold projExtentUInt
  rw [sizeMinusOne_of_pos (by omega) hf]
  cases p[0]? with
  | none => rfl
  | some v0 =>
    simp only []
    exact projLoopUInt_never_ends sep p (p.length - 1) (by omega) _ 1 _ _ (by omega)

theorem ite_lt_eq_min (a b : K) : (if a < b then a else b) = min a b := by
  by_cases h : a < b
  · rw [if_pos h, min_eq_left (le_of_lt h)]
  · rw [if_neg h, min_eq_right (not_lt.mp h)]

theorem axisStep_eq (E : Env K) (p1 p2 : List (Vector2 K)) (i : Nat)
    (h1 : 2 ≤ p1.length) (hf1 : FitsSizeT p1) (h2 : 1 ≤ p2.length) (hf2 : FitsUInt p2)
    (hi : i < p1.length - 1) :
    axisStep E p1 p2 i =
      some (if intervalsApart (Normalize E (edgeNormal p1.dropLast i))
          (seenVertices p1) (seenVertices p2)
        then AxisOutcome.separable
        else AxisOutcome.candidate
          (candidateOn (Normalize E (edgeNormal p1.dropLast i))
            (seenVertices p1) (seenVertices p2))) := by
  have hf1' := hf1
  unfold FitsSizeT at hf1'
  have hn : sizeMinusOne p1.length = p1.length - 1 := sizeMinusOne_of_pos (by omega) hf1'
  have hmod : (i + 1) % (p1.length - 1) < p1.length - 1 := Nat.mod_lt _ (by omega)
  have hi' : i < p1.length := by omega
  have hm' : (i + 1) % (p1.length - 1) < p1.length := by omega
  have hedge : edgeNormal p1.dropLast i = perp (p1[i].sub p1[(i + 1) % (p1.length - 1)]) := by
    unfold edgeNormal
    rw [List.length_dropLast, List.getD_eq_getElem _ _ (by rw [List.length_dropLast]; exact hi),
      List.getD_eq_getElem _ _ (by rw [List.length_dropLast]; exact hmod),
      List.getElem_dropLast, List.getElem_dropLast]
  unfold axisStep
  rw [hn, if_neg (by omega), List.getElem?_eq_getElem hi', List.getElem?_eq_getElem hm']
  simp only []
  rw [projExtent_eq _ p1 (by omega) hf1, projExtentUInt_eq _ p2 h2 hf2]
  simp only []
  rw [hedge, ite_lt_eq_min]
  by_cases hs : intervalsApart (Normalize E (perp (p1[i].sub p1[(i + 1) % (p1.length - 1)])))
      (seenVertices p1) (seenVertices p2)
  · have hs' := hs
    unfold intervalsApart at hs'
    rw [if_pos hs', if_pos hs]
  · have hs' := hs
    unfold intervalsApart at hs'
    rw [if_neg hs', if_neg hs]
    rfl

theorem edgeLoop_eq (E : Env K) (p1 p2 : List (Vector2 K))
    (h1 : 2 ≤ p1.length) (hf1 : FitsSizeT p1) (h2 : 1 ≤ p2.length) (hf2 : FitsUInt p2) :
    ∀ (count i : Nat) (mtds : List (Vector2 K)), i + count ≤ p1.length - 1 →
      edgeLoop E p1 p2 count i mtds =
        some (scanAxes (seenVertices p1) (seenVertices p2)
          ((List.range' i count).map (fun k => Normalize E (edgeNormal p1.dropLast k))) mtds) := by
  intro count
  induction count with
  | zero => intro i mtds _; simp [edgeLoop, scanAxes]
  | succ c ih =>
    intro i mtds hic
    unfold edgeLoop
    rw [axisStep_eq E p1 p2 i h1 hf1 h2 hf2 (by omega), List.range'_succ, List.map_cons]
    unfold scanAxes
    by_cases hs : intervalsApart (Normalize E (edgeNormal p1.dropLast i))
        (seenVertices p1) (seenVertices p2)
    · simp only [if_pos hs]
    · simp only [if_neg hs]
      exact ih (i + 1) _ (by omega)

theorem scanAxes_fst (q1 q2 : List (Vector2 K)) :
    ∀ (axes mtds : List (Vector2 K)),
      (scanAxes q1 q2 axes mtds).1 = true ↔ ∃ a ∈ axes, intervalsApart a q1 q2 := by
  intro axes
  induction axes with
  | nil => intro mtds; simp [scanAxes]
  | cons a as ih =>
    intro mtds
    unfold scanAxes
    by_cases hs : intervalsApart a q1 q2
    · simp [hs]
    · simp [hs, ih]

theorem scanAxes_snd (q1 q2 : List (Vector2 K)) :
    ∀ (axes mtds : List (Vector2 K)), (scanAxes q1 q2 axes mtds).1 = false →
      (scanAxes q1 q2 axes mtds).2 = mtds ++ axes.map (fun a => candidateOn a q1 q2) := by
  intro axes
  induction axes with
  | nil => intro mtds _; simp [scanAxes]
  | cons a as ih =>
    intro mtds
    unfold scanAxes
    by_cases hs : intervalsApart a q1 q2
    · simp [hs]
    · simp only [if_neg hs]
      intro h
      rw [ih _ h]
      simp

theorem minLoop_mem (m0 : Vector2 K) (rest : List (Vector2 K)) :
    minLoop m0 rest ∈ m0 :: rest := by
  unfold minLoop
  induction rest generalizing m0 with
  | nil => simp
  | cons r rs ih =>
    rw [List.foldl_cons]
    have := ih (if LengthSquared r < LengthSquared m0 then r else m0)
    rcases List.mem_cons.mp this with h | h
    · rw [h]; split_ifs <;> simp
    · exact List.mem_cons_of_mem _ (List.mem_cons_of_mem _ h)

theorem minLoop_le_init (m0 : Vector2 K) (rest : List (Vector2 K)) :
    LengthSquared (minLoop m0 rest) ≤ LengthSquared m0 := by
  unfold minLoop
  induction rest generalizing m0 with
  | nil => simp
  | cons r rs ih =>
    rw [List.foldl_cons]
    refine le_trans (ih _) ?_
    split_ifs with h
    · exact le_of_lt h
    · exact le_refl _

theorem minLoop_le (m0 : Vector2 K) (rest : List (Vector2 K)) :
    ∀ c ∈ m0 :: rest, LengthSquared (minLoop m0 rest) ≤ LengthSquared c := by
  induction rest generalizing m0 with
  | nil => intro c hc; simp at hc; subst hc; exact minLoop_le_init _ _
  | cons r rs ih =>
    intro c hc
    rcases List.mem_cons.mp hc with h | h
    · subst h; exact minLoop_le_init _ _
    · have hstep : minLoop m0 (r :: rs)
          = minLoop (if LengthSquared r < LengthSquared m0 then r else m0) rs := by
        unfold minLoop; rw [List.foldl_cons]
      rw [hstep]
      rcases List.mem_cons.mp h with h' | h'
      · subst h'
        refine le_trans (minLoop_le_init _ _) ?_
        split_ifs with hlt
        · exact le_refl _
        · exact not_lt.mp hlt
      · exact ih _ c (List.mem_cons_of_mem _ h')

/-- The edge loop of a whole call, for well-formed vectors. -/
theorem edgeLoop_full (E : Env K) (p1 p2 : List (Vector2 K))
    (h1 : 2 ≤ p1.length) (hf1 : FitsSizeT p1) (h2 : 1 ≤ p2.length) (hf2 : FitsUInt p2) :
    edgeLoop E p1 p2 (sizeMinusOne p1.length) 0 [] =
      some (scanAxes (seenVertices p1) (seenVertices p2) (unitNormals E p1.dropLast) []) := by
  have hf1' := hf1
  unfold FitsSizeT at hf1'
  rw [sizeMinusOne_of_pos (by omega) hf1',
    edgeLoop_eq E p1 p2 h1 hf1 h2 hf2 _ 0 [] (by omega)]
  unfold unitNormals edgeNormals
  rw [List.length_dropLast, List.range_eq_range', List.map_map]
  rfl

theorem unitNormals_ne_nil (E : Env K) (p1 : List (Vector2 K)) (h1 : 2 ≤ p1.length) :
    unitNormals E p1.dropLast ≠ [] := by
  unfold unitNormals edgeNormals
  rw [List.length_dropLast]
  obtain ⟨m, hm⟩ : ∃ m, p1.length - 1 = m + 1 := ⟨p1.length - 2, by omega⟩
  rw [hm, List.range_succ_eq_map]
  simp

/-- Closed form of `CheckPointListSeperability` for well-formed vectors. -/
theorem CheckPointListSeperability_eq (E : Env K) (p1 p2 : List (Vector2 K)) (out0 : Vector2 K)
    (h1 : 2 ≤ p1.length) (hf1 : FitsSizeT p1) (h2 : 1 ≤ p2.length) (hf2 : FitsUInt p2) :
    (¬ (∃ a ∈ unitNormals E p1.dropLast, intervalsApart a (seenVertices p1) (seenVertices p2)) ∧
      ∃ m0 rest, recordedCandidates E p1 p2 = m0 :: rest ∧
        CheckPointListSeperability E p1 p2 out0 = some (false, minLoop m0 rest)) ∨
    ((∃ a ∈ unitNormals E p1.dropLast, intervalsApart a (seenVertices p1) (seenVertices p2)) ∧
      CheckPointListSeperability E p1 p2 out0 = some (true, out0)) := by
  unfold CheckPointListSeperability
  rw [edgeLoop_full E p1 p2 h1 hf1 h2 hf2]
  have hfst := scanAxes_fst (seenVertices p1) (seenVertices p2) (unitNormals E p1.dropLast) []
  have hsnd := scanAxes_snd (seenVertices p1) (seenVertices p2) (unitNormals E p1.dropLast) []
  rcases hscan : scanAxes (seenVertices p1) (seenVertices p2) (unitNormals E p1.dropLast) []
    with ⟨b, mtds⟩
  rw [hscan] at hfst hsnd
  cases b with
  | true =>
    right
    exact ⟨hfst.mp rfl, rfl⟩
  | false =>
    left
    have hm : mtds = recordedCandidates E p1 p2 := by
      have := hsnd rfl
      simpa [recordedCandidates] using this
    refine ⟨fun hex => by simpa using hfst.mpr hex, ?_⟩
    cases hmt : mtds with
    | nil =>
      exfalso
      have hne := unitNormals_ne_nil E p1 h1
      rw [hmt] at hm
      have : unitNormals E p1.dropLast = [] := by
        have h0 := hm.symm
        unfold recordedCandidates at h0
        exact List.map_eq_nil_iff.mp h0
      exact hne this
    | cons m0 rest =>
      refine ⟨m0, rest, ?_, rfl⟩
      rw [← hm, hmt]

theorem edgeLoop_succ (E : Env K) (p1 p2 : List (Vector2 K)) (c i : Nat)
    (mtds : List (Vector2 K)) :
    edgeLoop E p1 p2 (c + 1) i mtds =
      match axisStep E p1 p2 i with
      | none => none
      | some AxisOutcome.separable => some (true, mtds)
      | some (AxisOutcome.candidate m) => edgeLoop E p1 p2 c (i + 1) (mtds ++ [m]) := rfl

theorem axisStep_nil_left (E : Env K) (p2 : List (Vector2 K)) (i : Nat) :
    axisStep E [] p2 i = none := by
  unfold axisStep
  split_ifs
  · rfl
  · simp

theorem axisStep_nil_right (E : Env K) (p1 : List (Vector2 K)) (i : Nat) :
    axisStep E p1 [] i = none := by
  unfold axisStep
  split_ifs
  · rfl
  · split
    · simp only [projExtent, projExtentUInt, List.getElem?_nil]
      split <;> simp_all
    · rfl

theorem CheckPointListSeperability_short_left (E : Env K) (p1 p2 : List (Vector2 K))
    (out0 : Vector2 K) (h : p1.length < 2) :
    CheckPointListSeperability E p1 p2 out0 = none := by
  unfold CheckPointListSeperability
  match p1, h with
  | [], _ =>
    have e : sizeMinusOne ([] : List (Vector2 K)).length = (2 ^ 64 - 2) + 1 := by
      simp [sizeMinusOne]
    rw [e, edgeLoop_succ, axisStep_nil_left]
  | [v], _ =>
    have e : sizeMinusOne [v].length = 0 := by simp [sizeMinusOne]
    rw [e]
    rfl

theorem CheckPointListSeperability_nil_right (E : Env K) (p1 : List (Vector2 K))
    (out0 : Vector2 K) (h1 : 2 ≤ p1.length) (hf1 : FitsSizeT p1) :
    CheckPointListSeperability E p1 [] out0 = none := by
  unfold CheckPointListSeperability
  unfold FitsSizeT at hf1
  obtain ⟨m, hm⟩ : ∃ m, sizeMinusOne p1.length = m + 1 :=
    ⟨p1.length - 2, by rw [sizeMinusOne_of_pos (by omega) hf1]; omega⟩
  rw [hm, edgeLoop_succ, axisStep_nil_right]

/-- With a second vector of more than `2 ^ 32` elements no pass of the edge loop
completes: its second projection loop never ends. -/
theorem axisStep_long_right (E : Env K) (p1 p2 : List (Vector2 K)) (i : Nat)
    (hlong : ¬ FitsUInt p2) (hf2 : FitsSizeT p2) :
    axisStep E p1 p2 i = none := by
  unfold axisStep
  split_ifs
  · rfl
  · split
    · rw [projExtentUInt_long _ p2 hlong hf2]
      split <;> simp_all
    · rfl

theorem CheckPointListSeperability_long_right (E : Env K) (p1 p2 : List (Vector2 K))
    (out0 : Vector2 K) (h1 : 2 ≤ p1.length) (hf1 : FitsSizeT p1)
    (hlong : ¬ FitsUInt p2) (hf2 : FitsSizeT p2) :
    CheckPointListSeperability E p1 p2 out0 = none := by
  unfold CheckPointListSeperability
  unfold FitsSizeT at hf1
  obtain ⟨m, hm⟩ : ∃ m, sizeMinusOne p1.length = m + 1 :=
    ⟨p1.length - 2, by rw [sizeMinusOne_of_pos (by omega) hf1]; omega⟩
  rw [hm, edgeLoop_succ, axisStep_long_right E p1 p2 0 hlong hf2]

/-- A call of `CheckPointListSeperability` that returns was made on a first vector
of two elements or more and a second vector of between 1 and `2 ^ 32` elements. -/
theorem CheckPointListSeperability_some_fits (E : Env K) (p1 p2 : List (Vector2 K))
    (out0 : Vector2 K) (r : Bool × Vector2 K) (hf1 : FitsSizeT p1) (hf2 : FitsSizeT p2)
    (h : CheckPointListSeperability E p1 p2 out0 = some r) :
    2 ≤ p1.length ∧ 1 ≤ p2.length ∧ FitsUInt p2 := by
  have h1 : 2 ≤ p1.length := by
    by_contra hlt
    rw [CheckPointListSeperability_short_left E p1 p2 out0 (by omega)] at h
    cases h
  have h2 : 1 ≤ p2.length := by
    by_contra hlt
    have hnil : p2 = [] := List.length_eq_zero.mp (by omega)
    rw [hnil, CheckPointListSeperability_nil_right E p1 out0 h1 hf1] at h
    cases h
  refine ⟨h1, h2, ?_⟩
  by_contra hlong
  rw [CheckPointListSeperability_long_right E p1 p2 out0 h1 hf1 hlong hf2] at h
  cases h

/-- The flag `CheckPointListSeperability` returns says whether the interval test
has succeeded on one of the axes of the first vector. -/
theorem CheckPointListSeperability_flag (E : Env K) (p1 p2 : List (Vector2 K))
    (out0 : Vector2 K) (b : Bool) (m : Vector2 K) (hf1 : FitsSizeT p1) (hf2 : FitsSizeT p2)
    (h : CheckPointListSeperability E p1 p2 out0 = some (b, m)) :
    b = true ↔
      ∃ a ∈ unitNormals E p1.dropLast, intervalsApart a (seenVertices p1) (seenVertices p2) := by
  obtain ⟨h1, h2, hu⟩ := CheckPointListSeperability_some_fits E p1 p2 out0 _ hf1 hf2 h
  rcases CheckPointListSeperability_eq E p1 p2 out0 h1 hf1 h2 hu with
    ⟨hn, m0, rest, _, hres⟩ | ⟨hy, hres⟩
  · rw [hres] at h
    have hb : false = b := (Prod.mk.inj (Option.some.inj h)).1
    rw [← hb]
    exact ⟨fun hc => Bool.noConfusion hc, fun hex => absurd hex hn⟩
  · rw [hres] at h
    have hb : true = b := (Prod.mk.inj (Option.some.inj h)).1
    rw [← hb]
    exact ⟨fun _ => hy, fun _ => rfl⟩

end Loops

/-! ## Normalising an axis does not change the verdict -/

section Raw

variable {K : Type} [LinearOrderedField K]

theorem Vector2.mul_mul (v : Vector2 K) (a b : K) : (v.mul a).mul b = v.mul (a * b) := by
  simp [Vector2.mul, mul_assoc]

theorem scalerProject_mul (r v : Vector2 K) (c : K) :
    scalerProject (r.mul c) v = c * scalerProject r v := by
  simp only [scalerProject, Dot, Vector2.mul]
  ring

theorem foldl_max_mul (r : Vector2 K) (c : K) (hc : 0 ≤ c) :
    ∀ (vs : List (Vector2 K)) (m : K),
      vs.foldl (fun m u => max m (scalerProject (r.mul c) u)) (c * m) =
        c * vs.foldl (fun m u => max m (scalerProject r u)) m := by
  intro vs
  induction vs with
  | nil => intro m; rfl
  | cons v vs ih =>
    intro m
    rw [List.foldl_cons, List.foldl_cons, scalerProject_mul, ← mul_max_of_nonneg _ _ hc, ih]

theorem foldl_min_mul (r : Vector2 K) (c : K) (hc : 0 ≤ c) :
    ∀ (vs : List (Vector2 K)) (m : K),
      vs.foldl (fun m u => min m (scalerProject (r.mul c) u)) (c * m) =
        c * vs.foldl (fun m u => min m (scalerProject r u)) m := by
  intro vs
  induction vs with
  | nil => intro m; rfl
  | cons v vs ih =>
    intro m
    rw [List.foldl_cons, List.foldl_cons, scalerProject_mul, ← mul_min_of_nonneg _ _ hc, ih]

theorem maxProj_mul (r : Vector2 K) (c : K) (hc : 0 ≤ c) (q : List (Vector2 K)) :
    maxProj (r.mul c) q = c * maxProj r q := by
  cases q with
  | nil => simp [maxProj]
  | cons v vs =>
    simp only [maxProj]
    rw [scalerProject_mul, foldl_max_mul r c hc]

theorem minProj_mul (r : Vector2 K) (c : K) (hc : 0 ≤ c) (q : List (Vector2 K)) :
    minProj (r.mul c) q = c * minProj r q := by
  cases q with
  | nil => simp [minProj]
  | cons v vs =>
    simp only [minProj]
    rw [scalerProject_mul, foldl_min_mul r c hc]

theorem intervalsApart_mul (r : Vector2 K) (c : K) (hc : 0 < c) (q1 q2 : List (Vector2 K)) :
    intervalsApart (r.mul c) q1 q2 ↔ intervalsApart r q1 q2 := by
  unfold intervalsApart
  rw [maxProj_mul r c hc.le, maxProj_mul r c hc.le, minProj_mul r c hc.le,
    minProj_mul r c hc.le]
  simp only [gt_iff_lt, mul_lt_mul_left hc]

theorem candidateOn_mul (r : Vector2 K) (c : K) (hc : 0 ≤ c) (q1 q2 : List (Vector2 K)) :
    candidateOn (r.mul c) q1 q2 =
      r.mul (min (maxProj r q1 - minProj r q2) (maxProj r q2 - minProj r q1) * (c * c)) := by
  unfold candidateOn
  rw [maxProj_mul r c hc, maxProj_mul r c hc, minProj_mul r c hc, minProj_mul r c hc,
    ← mul_sub, ← mul_sub, ← mul_min_of_nonneg _ _ hc, Vector2.mul_mul]
  congr 1
  ring

theorem lengthSquared_eq_zero (r : Vector2 K) (h : LengthSquared r = 0) : r = ⟨0, 0⟩ := by
  unfold LengthSquared at h
  have hx : r.x * r.x = 0 := by nlinarith [mul_self_nonneg r.x, mul_self_nonneg r.y]
  have hy : r.y * r.y = 0 := by nlinarith [mul_self_nonneg r.x, mul_self_nonneg r.y]
  ext
  · exact mul_self_eq_zero.mp hx
  · exact mul_self_eq_zero.mp hy

theorem lengthSquared_nonneg (r : Vector2 K) : 0 ≤ LengthSquared r := by
  unfold LengthSquared
  nlinarith [mul_self_nonneg r.x, mul_self_nonneg r.y]

theorem Normalize_eq_mul (E : Env K) (r : Vector2 K) :
    Normalize E r = r.mul (Length E r)⁻¹ := by
  simp [Normalize, Vector2.mul, div_eq_mul_inv]

theorem Normalize_zero (E : Env K) : Normalize E (⟨0, 0⟩ : Vector2 K) = ⟨0, 0⟩ := by
  simp [Normalize]

theorem intervalsApart_zero (q1 q2 : List (Vector2 K)) :
    ¬ intervalsApart (⟨0, 0⟩ : Vector2 K) q1 q2 := by
  have h := maxProj_mul (⟨0, 0⟩ : Vector2 K) 0 (le_refl 0)
  have h' := minProj_mul (⟨0, 0⟩ : Vector2 K) 0 (le_refl 0)
  have hz : (⟨0, 0⟩ : Vector2 K).mul 0 = ⟨0, 0⟩ := by simp [Vector2.mul]
  rw [hz] at h h'
  unfold intervalsApart
  rw [h q1, h q2, h' q1, h' q2]
  simp

theorem intervalsApart_normalize (E : Env K) (hE : SqrtSound E) (r : Vector2 K)
    (q1 q2 : List (Vector2 K)) :
    intervalsApart (Normalize E r) q1 q2 ↔ intervalsApart r q1 q2 := by
  rcases (lengthSquared_nonneg r).eq_or_lt with h0 | hpos
  · rw [lengthSquared_eq_zero r h0.symm, Normalize_zero]
  · have hL0 : 0 < Length E r := (hE _ hpos).1
    rw [Normalize_eq_mul]
    exact intervalsApart_mul r _ (inv_pos.mpr hL0) q1 q2

theorem candidateOn_normalize (E : Env K) (hE : SqrtSound E) (r : Vector2 K)
    (q1 q2 : List (Vector2 K)) :
    candidateOn (Normalize E r) q1 q2 = rawCandidate r q1 q2 := by
  rcases (lengthSquared_nonneg r).eq_or_lt with h0 | hpos
  · rw [lengthSquared_eq_zero r h0.symm, Normalize_zero]
    simp [candidateOn, rawCandidate, Vector2.mul]
  · have hL0 : 0 < Length E r := (hE _ hpos).1
    have hL : Length E r * Length E r = LengthSquared r := (hE _ hpos).2
    rw [Normalize_eq_mul, candidateOn_mul r _ (inv_pos.mpr hL0).le]
    unfold rawCandidate
    rw [← mul_inv, hL, div_eq_mul_inv]

theorem scanAxes_normalize (E : Env K) (hE : SqrtSound E) (q1 q2 : List (Vector2 K)) :
    ∀ (rs mtds : List (Vector2 K)),
      scanAxes q1 q2 (rs.map (Normalize E)) mtds = scanRaw q1 q2 rs mtds := by
  intro rs
  induction rs with
  | nil => intro mtds; rfl
  | cons r rs ih =>
    intro mtds
    rw [List.map_cons]
    unfold scanAxes scanRaw
    by_cases hs : intervalsApart r q1 q2
    · rw [if_pos hs, if_pos ((intervalsApart_normalize E hE r q1 q2).mpr hs)]
    · rw [if_neg hs, if_neg (fun h => hs ((intervalsApart_normalize E hE r q1 q2).mp h)),
        candidateOn_normalize E hE, ih]

/-- With a sound square root, `CheckPointListSeperability` is `satRaw`. -/
theorem CheckPointListSeperability_eq_satRaw (E : Env K) (hE : SqrtSound E)
    (p1 p2 : List (Vector2 K)) (out0 : Vector2 K)
    (h1 : 2 ≤ p1.length) (hf1 : FitsSizeT p1) (h2 : 1 ≤ p2.length) (hf2 : FitsUInt p2) :
    CheckPointListSeperability E p1 p2 out0 = satRaw p1 p2 out0 := by
  unfold CheckPointListSeperability satRaw
  rw [edgeLoop_full E p1 p2 h1 hf1 h2 hf2]
  unfold unitNormals
  rw [scanAxes_normalize E hE]
  rcases scanRaw (seenVertices p1) (seenVertices p2) (edgeNormals p1.dropLast) []
    with ⟨b, mtds⟩
  cases b <;> cases mtds <;> rfl

end Raw

/-! ## Computing with rationals

The functions without a square root commute with the embedding of the rationals,
so a value computed on rational vectors is the value in every field `K`. -/

section Cast

variable {K : Type} [LinearOrderedField K]

theorem scalerProject_ofRat (r v : Vector2 ℚ) :
    scalerProject (r.ofRat : Vector2 K) v.ofRat = ((scalerProject r v : ℚ) : K) := by
  simp [scalerProject, Dot, Vector2.ofRat]

theorem Dot_ofRat (r v : Vector2 ℚ) :
    Dot (r.ofRat : Vector2 K) v.ofRat = ((Dot r v : ℚ) : K) := by
  simp [Dot, Vector2.ofRat]

theorem LengthSquared_ofRat (v : Vector2 ℚ) :
    LengthSquared (v.ofRat : Vector2 K) = ((LengthSquared v : ℚ) : K) := by
  simp [LengthSquared, Vector2.ofRat]

theorem foldl_max_ofRat (r : Vector2 ℚ) :
    ∀ (vs : List (Vector2 ℚ)) (m : ℚ),
      (vs.map Vector2.ofRat).foldl
          (fun m u => max m (scalerProject (r.ofRat : Vector2 K) u)) (m : K) =
        ((vs.foldl (fun m u => max m (scalerProject r u)) m : ℚ) : K) := by
  intro vs
  induction vs with
  | nil => intro m; rfl
  | cons v vs ih =>
    intro m
    rw [List.map_cons, List.foldl_cons, List.foldl_cons, scalerProject_ofRat, ← Rat.cast_max, ih]

theorem foldl_min_ofRat (r : Vector2 ℚ) :
    ∀ (vs : List (Vector2 ℚ)) (m : ℚ),
      (vs.map Vector2.ofRat).foldl
          (fun m u => min m (scalerProject (r.ofRat : Vector2 K) u)) (m : K) =
        ((vs.foldl (fun m u => min m (scalerProject r u)) m : ℚ) : K) := by
  intro vs
  induction vs with
  | nil => intro m; rfl
  | cons v vs ih =>
    intro m
    rw [List.map_cons, List.foldl_cons, List.foldl_cons, scalerProject_ofRat, ← Rat.cast_min, ih]

theorem maxProj_ofRat (r : Vector2 ℚ) (q : List (Vector2 ℚ)) :
    maxProj (r.ofRat : Vector2 K) (q.map Vector2.ofRat) = ((maxProj r q : ℚ) : K) := by
  cases q with
  | nil => simp [maxProj]
  | cons v vs =>
    simp only [maxProj, List.map_cons]
    rw [scalerProject_ofRat, foldl_max_ofRat]

theorem minProj_ofRat (r : Vector2 ℚ) (q : List (Vector2 ℚ)) :
    minProj (r.ofRat : Vector2 K) (q.map Vector2.ofRat) = ((minProj r q : ℚ) : K) := by
  cases q with
  | nil => simp [minProj]
  | cons v vs =>
    simp only [minProj, List.map_cons]
    rw [scalerProject_ofRat, foldl_min_ofRat]

theorem intervalsApart_ofRat (r : Vector2 ℚ) (q1 q2 : List (Vector2 ℚ)) :
    intervalsApart (r.ofRat : Vector2 K) (q1.map Vector2.ofRat) (q2.map Vector2.ofRat) ↔
      intervalsApart r q1 q2 := by
  unfold intervalsApart
  rw [maxProj_ofRat, maxProj_ofRat, minProj_ofRat, minProj_ofRat]
  simp only [gt_iff_lt, Rat.cast_lt]

theorem rawCandidate_ofRat (r : Vector2 ℚ) (q1 q2 : List (Vector2 ℚ)) :
    rawCandidate (r.ofRat : Vector2 K) (q1.map Vector2.ofRat) (q2.map Vector2.ofRat) =
      (rawCandidate r q1 q2).ofRat := by
  unfold rawCandidate
  rw [maxProj_ofRat, maxProj_ofRat, minProj_ofRat, minProj_ofRat, LengthSquared_ofRat]
  simp [Vector2.mul, Vector2.ofRat]

theorem scanRaw_ofRat (q1 q2 : List (Vector2 ℚ)) :
    ∀ (rs mtds : List (Vector2 ℚ)),
      scanRaw (q1.map (Vector2.ofRat : Vector2 ℚ → Vector2 K)) (q2.map Vector2.ofRat)
          (rs.map Vector2.ofRat) (mtds.map Vector2.ofRat) =
        ((scanRaw q1 q2 rs mtds).1, (scanRaw q1 q2 rs mtds).2.map Vector2.ofRat) := by
  intro rs
  induction rs with
  | nil => intro mtds; rfl
  | cons r rs ih =>
    intro mtds
    rw [List.map_cons]
    unfold scanRaw
    by_cases hs : intervalsApart r q1 q2
    · rw [if_pos hs, if_pos ((intervalsApart_ofRat r q1 q2).mpr hs)]
    · rw [if_neg hs, if_neg (fun h => hs ((intervalsApart_ofRat r q1 q2).mp h)),
        rawCandidate_ofRat]
      have := ih (mtds ++ [rawCandidate r q1 q2])
      rw [List.map_append, List.map_cons, List.map_nil] at this
      exact this

theorem edgeNormal_ofRat (q : List (Vector2 ℚ)) (i : Nat) :
    edgeNormal (q.map (Vector2.ofRat : Vector2 ℚ → Vector2 K)) i = (edgeNormal q i).ofRat := by
  have hz : (⟨0, 0⟩ : Vector2 K) = Vector2.ofRat ⟨0, 0⟩ := by simp [Vector2.ofRat]
  unfold edgeNormal
  rw [List.length_map, hz, List.getD_map, List.getD_map]
  simp [perp, Vector2.sub, Vector2.ofRat]

theorem edgeNormals_ofRat (q : List (Vector2 ℚ)) :
    edgeNormals (q.map (Vector2.ofRat : Vector2 ℚ → Vector2 K)) =
      (edgeNormals q).map Vector2.ofRat := by
  unfold edgeNormals
  rw [List.length_map, List.map_map]
  apply List.map_congr_left
  intro i _
  exact edgeNormal_ofRat q i

omit [LinearOrderedField K] in
theorem seenVertices_map (f : Vector2 ℚ → Vector2 K) (p : List (Vector2 ℚ)) :
    seenVertices (p.map f) = (seenVertices p).map f := by
  unfold seenVertices
  rw [List.length_map, List.map_take]

theorem minLoop_ofRat :
    ∀ (rest : List (Vector2 ℚ)) (m0 : Vector2 ℚ),
      minLoop (m0.ofRat : Vector2 K) (rest.map Vector2.ofRat) = (minLoop m0 rest).ofRat := by
  intro rest
  induction rest with
  | nil => intro m0; rfl
  | cons r rs ih =>
    intro m0
    unfold minLoop
    rw [List.map_cons, List.foldl_cons, List.foldl_cons, LengthSquared_ofRat,
      LengthSquared_ofRat]
    by_cases h : LengthSquared r < LengthSquared m0
    · rw [if_pos h, if_pos (Rat.cast_lt.mpr h)]
      exact ih r
    · rw [if_neg h, if_neg (fun h' => h (Rat.cast_lt.mp h'))]
      exact ih m0

/-- The value of `satRaw` on rational vectors is its value in `K`. -/
theorem satRaw_ofRat (p1 p2 : List (Vector2 ℚ)) (out0 : Vector2 ℚ) :
    satRaw (p1.map (Vector2.ofRat : Vector2 ℚ → Vector2 K)) (p2.map Vector2.ofRat) out0.ofRat =
      (satRaw p1 p2 out0).map (fun r => (r.1, r.2.ofRat)) := by
  unfold satRaw
  rw [seenVertices_map, seenVertices_map, ← List.map_dropLast, edgeNormals_ofRat]
  have h := scanRaw_ofRat (K := K) (seenVertices p1) (seenVertices p2)
    (edgeNormals p1.dropLast) []
  rw [List.map_nil] at h
  rw [h]
  rcases scanRaw (seenVertices p1) (seenVertices p2) (edgeNormals p1.dropLast) []
    with ⟨b, mtds⟩
  cases b with
  | true => rfl
  | false =>
    cases mtds with
    | nil => rfl
    | cons m0 rest =>
      simp only [List.map_cons, Option.map_some']
      rw [minLoop_ofRat]

theorem Separates_ofRat (r : Vector2 ℚ) (q1 q2 : List (Vector2 ℚ)) :
    Separates (r.ofRat : Vector2 K) (q1.map Vector2.ofRat) (q2.map Vector2.ofRat) ↔
      Separates r q1 q2 := by
  unfold Separates
  simp only [List.forall_mem_map, Dot_ofRat, Rat.cast_lt]

end Cast

/-! ## The wrap repositioning and its undoing -/

section Collision

variable {K : Type} [LinearOrderedField K] [FloorRing K]

theorem wrapCoord_of_mem (w v : K) (h0 : 0 ≤ v) (h1 : v < w) : wrapCoord w v = v := by
  have hw : 0 < w := lt_of_le_of_lt h0 h1
  have hfl : ⌊v / w⌋ = 0 := by
    rw [Int.floor_eq_iff]
    constructor
    · simpa using div_nonneg h0 hw.le
    · simpa using (div_lt_one hw).mpr h1
  simp [wrapCoord, hfl]

theorem wrapCoord_add_back (w s m : K) (h0 : 0 ≤ s) (h1 : s < w) :
    wrapCoord w (wrapCoord w (s - m) + m) = s := by
  have hw : 0 < w := lt_of_le_of_lt h0 h1
  have hne : w ≠ 0 := ne_of_gt hw
  have e : wrapCoord w (s - m) + m = s - w * ((⌊(s - m) / w⌋ : ℤ) : K) := by
    unfold wrapCoord; ring
  rw [e]
  have e2 : (s - w * ((⌊(s - m) / w⌋ : ℤ) : K)) / w = s / w - ((⌊(s - m) / w⌋ : ℤ) : K) := by
    field_simp
  have hfl : ⌊s / w⌋ = 0 := by
    rw [Int.floor_eq_iff]
    constructor
    · simpa using div_nonneg h0 hw.le
    · simpa using (div_lt_one hw).mpr h1
  unfold wrapCoord
  rw [e2, Int.floor_sub_int, hfl]
  push_cast
  ring

theorem WrapVector2_of_inDomain (E : Env K) (v : Vector2 K) (h : InDomain E v) :
    WrapVector2 E.WORLD_WIDTH E.WORLD_HEIGHT v = v := by
  obtain ⟨hx0, hx1, hy0, hy1⟩ := h
  ext
  · exact wrapCoord_of_mem _ _ hx0 hx1
  · exact wrapCoord_of_mem _ _ hy0 hy1

theorem WrapVector2_add_back (E : Env K) (s m : Vector2 K) (h : InDomain E s) :
    WrapVector2 E.WORLD_WIDTH E.WORLD_HEIGHT
      ((WrapVector2 E.WORLD_WIDTH E.WORLD_HEIGHT (s.sub m)).add m) = s := by
  obtain ⟨hx0, hx1, hy0, hy1⟩ := h
  ext
  · exact wrapCoord_add_back _ _ _ hx0 hx1
  · exact wrapCoord_add_back _ _ _ hy0 hy1

omit [FloorRing K] in
theorem needsMove_false_of_noWrap (E : Env K) (self shape : CollisionShape K)
    (h : self.wrapAround = false) : needsMove E self shape = false := by
  unfold needsMove distanceBetween
  rw [h]
  simp only [Bool.false_eq_true, if_false, sub_self, abs_zero]
  rw [decide_eq_false_iff_not]
  norm_num

omit [FloorRing K] in
theorem wrapAround_of_needsMove (E : Env K) (self shape : CollisionShape K)
    (h : needsMove E self shape = true) : self.wrapAround = true := by
  cases hw : self.wrapAround with
  | true => rfl
  | false => rw [needsMove_false_of_noWrap E self shape hw] at h; cases h

omit [FloorRing K] in
theorem foldl_keep_shorter_le (f : Vector2 K → K) (g : Vector2 K → Vector2 K) :
    ∀ (l : List (Vector2 K)) (init : Vector2 K),
      f (l.foldl (fun best off => if f (g off) < f best then g off else best) init) ≤ f init ∧
      ∀ off ∈ l,
        f (l.foldl (fun best off => if f (g off) < f best then g off else best) init)
          ≤ f (g off) := by
  intro l
  induction l with
  | nil => intro init; simp
  | cons a as ih =>
    intro init
    rw [List.foldl_cons]
    obtain ⟨h1, h2⟩ := ih (if f (g a) < f init then g a else init)
    have hstep : f (if f (g a) < f init then g a else init) ≤ f init ∧
        f (if f (g a) < f init then g a else init) ≤ f (g a) := by
      split_ifs with hlt
      · exact ⟨le_of_lt hlt, le_refl _⟩
      · exact ⟨le_refl _, not_lt.mp hlt⟩
    refine ⟨le_trans h1 hstep.1, ?_⟩
    intro off hoff
    rcases List.mem_cons.mp hoff with he | hm
    · rw [he]; exact le_trans h1 hstep.2
    · exact h2 off hm

omit [FloorRing K] in
theorem GetShortestWrappedDistance_le (E : Env K) (src dst : Vector2 K) (w h : K) :
    ∀ off ∈ wrapOffsets w h,
      Length E (GetShortestWrappedDistance E src dst w h) ≤ Length E ((dst.add off).sub src) := by
  unfold GetShortestWrappedDistance
  exact (foldl_keep_shorter_le (Length E) (fun off => (dst.add off).sub src)
    (wrapOffsets w h) (dst.sub src)).2

omit [FloorRing K] in
theorem needsMove_of_gap (E : Env K) (self shape : CollisionShape K)
    (hw : self.wrapAround = true) (off : Vector2 K)
    (hoff : off ∈ wrapOffsets E.WORLD_WIDTH E.WORLD_HEIGHT) (a d : K)
    (ha : Length E ((self.world.pos.add off).sub shape.world.pos) ≤ a)
    (hd : d ≤ distanceBetween E shape.world.pos self.world.pos)
    (hgap : a + 1 / 10 < d) : needsMove E self shape = true := by
  unfold needsMove
  rw [hw, if_pos rfl, decide_eq_true_iff]
  have h1 := GetShortestWrappedDistance_le E shape.world.pos self.world.pos
    E.WORLD_WIDTH E.WORLD_HEIGHT off hoff
  have h2 : Length E (GetShortestWrappedDistance E shape.world.pos self.world.pos
      E.WORLD_WIDTH E.WORLD_HEIGHT) - distanceBetween E shape.world.pos self.world.pos
      < -(1 / 10) := by linarith
  rw [gt_iff_lt, lt_abs]
  right
  linarith

omit [FloorRing K] in
theorem sqrt_le_of_le_sq (E : Env K) (hE : SqrtSound E) (x a : K) (hx : 0 < x) (ha : 0 ≤ a)
    (h : x ≤ a * a) : E.sqrt x ≤ a := by
  obtain ⟨hpos, hsq⟩ := hE x hx
  by_contra hlt
  have hlt' : a < E.sqrt x := not_le.mp hlt
  nlinarith

omit [FloorRing K] in
theorem le_sqrt_of_sq_le (E : Env K) (hE : SqrtSound E) (x d : K) (hx : 0 < x)
    (h : d * d ≤ x) : d ≤ E.sqrt x := by
  obtain ⟨hpos, hsq⟩ := hE x hx
  by_contra hlt
  have hlt' : E.sqrt x < d := not_le.mp hlt
  nlinarith

omit [FloorRing K] in
theorem sqrt_eq_of_sq (E : Env K) (hE : SqrtSound E) (x a : K) (ha : 0 < a)
    (h : a * a = x) : E.sqrt x = a := by
  have hx : 0 < x := by rw [← h]; exact mul_pos ha ha
  exact le_antisymm (sqrt_le_of_le_sq E hE x a hx ha.le h.ge)
    (le_sqrt_of_sq_le E hE x a hx h.le)

omit [FloorRing K] in
theorem movedSelf_points (E : Env K) (self shape : CollisionShape K) :
    (movedSelf E self shape).points = self.points := by
  unfold movedSelf; split_ifs <;> rfl

theorem movedShape_points (E : Env K) (self shape : CollisionShape K) :
    (movedShape E self shape).points = shape.points := by
  unfold movedShape; split_ifs <;> rfl

omit [FloorRing K] in
theorem GetTransformedPoints_length (E : Env K) (s : CollisionShape K) :
    (s.GetTransformedPoints E).length = s.points.length := by
  simp [CollisionShape.GetTransformedPoints]

/-- The three ways out of `CheckCollision`. -/
theorem CheckCollision_cases (E : Env K) (self shape : CollisionShape K)
    (out0 : Vector2 K) (r : CollisionResult K)
    (h : CheckCollision E self shape out0 = some r) :
    (∃ o, CheckPointListSeperability E ((movedSelf E self shape).GetTransformedPoints E)
        ((movedShape E self shape).GetTransformedPoints E) ⟨0, 0⟩ = some (true, o) ∧
      r = restoreBoth E (moveDistanceOf E self shape) (movedSelf E self shape)
        (movedShape E self shape) false out0) ∨
    (∃ m1 o, CheckPointListSeperability E ((movedSelf E self shape).GetTransformedPoints E)
        ((movedShape E self shape).GetTransformedPoints E) ⟨0, 0⟩ = some (false, m1) ∧
      CheckPointListSeperability E ((movedShape E self shape).GetTransformedPoints E)
        ((movedSelf E self shape).GetTransformedPoints E) ⟨0, 0⟩ = some (true, o) ∧
      r = restoreBoth E (moveDistanceOf E self shape) (movedSelf E self shape)
        (movedShape E self shape) false out0) ∨
    (∃ m1 m2, CheckPointListSeperability E ((movedSelf E self shape).GetTransformedPoints E)
        ((movedShape E self shape).GetTransformedPoints E) ⟨0, 0⟩ = some (false, m1) ∧
      CheckPointListSeperability E ((movedShape E self shape).GetTransformedPoints E)
        ((movedSelf E self shape).GetTransformedPoints E) ⟨0, 0⟩ = some (false, m2) ∧
      r = restoreBoth E (moveDistanceOf E self shape) (movedSelf E self shape)
        (movedShape E self shape) true
        (orientMtd (movedSelf E self shape) (movedShape E self shape) m1 m2)) := by
  unfold CheckCollision at h
  cases h1 : CheckPointListSeperability E ((movedSelf E self shape).GetTransformedPoints E)
      ((movedShape E self shape).GetTransformedPoints E) ⟨0, 0⟩ with
  | none => rw [h1] at h; cases h
  | some p1 =>
    obtain ⟨b1, m1⟩ := p1
    rw [h1] at h
    cases b1 with
    | true =>
      left
      exact ⟨m1, rfl, (Option.some.inj h).symm⟩
    | false =>
      right
      simp only [] at h
      cases h2 : CheckPointListSeperability E ((movedShape E self shape).GetTransformedPoints E)
          ((movedSelf E self shape).GetTransformedPoints E) ⟨0, 0⟩ with
      | none => rw [h2] at h; cases h
      | some p2 =>
        obtain ⟨b2, m2⟩ := p2
        rw [h2] at h
        cases b2 with
        | true =>
          left
          exact ⟨m1, m2, rfl, rfl, (Option.some.inj h).symm⟩
        | false =>
          right
          exact ⟨m1, m2, rfl, rfl, (Option.some.inj h).symm⟩

/-- `CheckCollision` returns on polygons of two vertices or more, when the
`unsigned int` counter of the second projection loop can reach its bound. -/
theorem CheckCollision_some (E : Env K) (self shape : CollisionShape K) (out0 : Vector2 K)
    (h1 : 2 ≤ self.points.length) (hf1 : FitsUInt self.points)
    (h2 : 2 ≤ shape.points.length) (hf2 : FitsUInt shape.points) :
    ∃ r, CheckCollision E self shape out0 = some r := by
  have l1 : ((movedSelf E self shape).GetTransformedPoints E).length = self.points.length := by
    rw [GetTransformedPoints_length, movedSelf_points]
  have l2 : ((movedShape E self shape).GetTransformedPoints E).length = shape.points.length := by
    rw [GetTransformedPoints_length, movedShape_points]
  have f1 : FitsUInt ((movedSelf E self shape).GetTransformedPoints E) := by
    unfold FitsUInt at hf1 ⊢; rw [l1]; exact hf1
  have f2 : FitsUInt ((movedShape E self shape).GetTransformedPoints E) := by
    unfold FitsUInt at hf2 ⊢; rw [l2]; exact hf2
  unfold CheckCollision
  rcases CheckPointListSeperability_eq E _ _ ⟨0, 0⟩ (by rw [l1]; exact h1) f1.fitsSizeT
      (by rw [l2]; omega) f2 with ⟨_, m0, rest, _, hres⟩ | ⟨_, hres⟩
  · rw [hres]
    rcases CheckPointListSeperability_eq E _ _ ⟨0, 0⟩ (by rw [l2]; exact h2) f2.fitsSizeT
        (by rw [l1]; omega) f1 with ⟨_, n0, rest2, _, hres2⟩ | ⟨_, hres2⟩
    · rw [hres2]; exact ⟨_, rfl⟩
    · rw [hres2]; exact ⟨_, rfl⟩
  · rw [hres]; exact ⟨_, rfl⟩

/-- The flag `CheckCollision` returns, whenever it returns: true exactly when
neither pass of the separation test finds its interval test satisfied. -/
theorem CheckCollision_ret_iff (E : Env K) (self shape : CollisionShape K)
    (out0 : Vector2 K) (r : CollisionResult K)
    (hf1 : FitsSizeT self.points) (hf2 : FitsSizeT shape.points)
    (h : CheckCollision E self shape out0 = some r) :
    r.ret = true ↔
      (¬ (∃ a ∈ unitNormals E ((movedSelf E self shape).GetTransformedPoints E).dropLast,
          intervalsApart a (seenVertices ((movedSelf E self shape).GetTransformedPoints E))
            (seenVertices ((movedShape E self shape).GetTransformedPoints E))) ∧
       ¬ (∃ a ∈ unitNormals E ((movedShape E self shape).GetTransformedPoints E).dropLast,
          intervalsApart a (seenVertices ((movedShape E self shape).GetTransformedPoints E))
            (seenVertices ((movedSelf E self shape).GetTransformedPoints E)))) := by
  have f1 : FitsSizeT ((movedSelf E self shape).GetTransformedPoints E) := by
    unfold FitsSizeT at hf1 ⊢
    rw [GetTransformedPoints_length, movedSelf_points]; exact hf1
  have f2 : FitsSizeT ((movedShape E self shape).GetTransformedPoints E) := by
    unfold FitsSizeT at hf2 ⊢
    rw [GetTransformedPoints_length, movedShape_points]; exact hf2
  rcases CheckCollision_cases E self shape out0 r h with
    ⟨o, hc1, hr⟩ | ⟨m1, o, hc1, hc2, hr⟩ | ⟨m1, m2, hc1, hc2, hr⟩
  · have hy := (CheckPointListSeperability_flag E _ _ _ _ _ f1 f2 hc1).mp rfl
    rw [hr]
    exact ⟨fun hc => Bool.noConfusion hc, fun hn => absurd hy hn.1⟩
  · have hy := (CheckPointListSeperability_flag E _ _ _ _ _ f2 f1 hc2).mp rfl
    rw [hr]
    exact ⟨fun hc => Bool.noConfusion hc, fun hn => absurd hy hn.2⟩
  · have hn1 : ¬ _ := fun hex =>
      Bool.noConfusion ((CheckPointListSeperability_flag E _ _ _ _ _ f1 f2 hc1).mpr hex)
    have hn2 : ¬ _ := fun hex =>
      Bool.noConfusion ((CheckPointListSeperability_flag E _ _ _ _ _ f2 f1 hc2).mpr hex)
    rw [hr]
    exact ⟨fun _ => ⟨hn1, hn2⟩, fun _ => rfl⟩

theorem restoreBoth_of_noMove (E : Env K) (self shape : CollisionShape K)
    (ret : Bool) (out : Vector2 K) (h : needsMove E self shape = false) :
    restoreBoth E (moveDistanceOf E self shape) (movedSelf E self shape)
      (movedShape E self shape) ret out = ⟨ret, out, self, shape⟩ := by
  unfold restoreBoth moveDistanceOf movedSelf movedShape RestorePosition
  rw [h]
  simp [distanceSquared, LengthSquared, Vector2.sub]

theorem RestorePosition_self (E : Env K) (pos : Vector2 K) (hs : InDomain E pos) :
    RestorePosition E true pos (pos.sub pos) = pos := by
  have hzero : pos.sub pos = (⟨0, 0⟩ : Vector2 K) := by simp [Vector2.sub]
  unfold RestorePosition
  by_cases hd : distanceSquared pos (⟨0, 0⟩ : Vector2 K) = 0
  · have h0 := lengthSquared_eq_zero (pos.sub ⟨0, 0⟩) hd
    have hx := congrArg Vector2.x h0
    have hy := congrArg Vector2.y h0
    simp only [Vector2.sub, sub_zero] at hx hy
    simp only [hd, ne_eq, not_true_eq_false, if_false]
    rw [hzero]
    exact (Vector2.ext hx hy).symm
  · simp only [ne_eq, hd, not_false_eq_true, if_true]
    have hadd : (⟨0, 0⟩ : Vector2 K).add pos = pos := by simp [Vector2.add]
    rw [hzero, hadd, WrapVector2_of_inDomain E _ hs]

theorem RestorePosition_shape (E : Env K) (pos s : Vector2 K) (ho : InDomain E s) :
    RestorePosition E true pos (WrapVector2 E.WORLD_WIDTH E.WORLD_HEIGHT (s.sub pos)) = s := by
  unfold RestorePosition
  by_cases hd : distanceSquared pos (⟨0, 0⟩ : Vector2 K) = 0
  · have h0 := lengthSquared_eq_zero (pos.sub ⟨0, 0⟩) hd
    have hx := congrArg Vector2.x h0
    have hy := congrArg Vector2.y h0
    simp only [Vector2.sub, sub_zero] at hx hy
    have hsub : s.sub pos = s := by
      ext <;> simp [Vector2.sub, hx, hy]
    simp only [hd, ne_eq, not_true_eq_false, if_false]
    rw [hsub, WrapVector2_of_inDomain E _ ho]
  · simp only [ne_eq, hd, not_false_eq_true, if_true]
    exact WrapVector2_add_back E _ _ ho

theorem restoreBoth_of_inDomain (E : Env K) (self shape : CollisionShape K)
    (ret : Bool) (out : Vector2 K)
    (hs : InDomain E self.world.pos) (ho : InDomain E shape.world.pos) :
    restoreBoth E (moveDistanceOf E self shape) (movedSelf E self shape)
      (movedShape E self shape) ret out = ⟨ret, out, self, shape⟩ := by
  cases hm : needsMove E self shape with
  | false => exact restoreBoth_of_noMove E self shape ret out hm
  | true =>
    have hw := wrapAround_of_needsMove E self shape hm
    obtain ⟨pts, ⟨pos, sc, rot⟩, wa⟩ := self
    obtain ⟨pts2, ⟨pos2, sc2, rot2⟩, wa2⟩ := shape
    simp only at hw hs ho
    subst hw
    unfold restoreBoth moveDistanceOf movedSelf movedShape
    rw [hm]
    simp only [if_true]
    rw [RestorePosition_self E pos hs, RestorePosition_shape E pos pos2 ho]

theorem CheckCollision_result (E : Env K) (self shape : CollisionShape K)
    (out0 : Vector2 K) (r : CollisionResult K)
    (h : CheckCollision E self shape out0 = some r) :
    ∃ ret out, r = restoreBoth E (moveDistanceOf E self shape) (movedSelf E self shape)
      (movedShape E self shape) ret out := by
  rcases CheckCollision_cases E self shape out0 r h with
    ⟨_, _, hr⟩ | ⟨_, _, _, _, hr⟩ | ⟨_, _, _, _, hr⟩
  · exact ⟨_, _, hr⟩
  · exact ⟨_, _, hr⟩
  · exact ⟨_, _, hr⟩

omit [FloorRing K] in
theorem movedSelf_of_noMove (E : Env K) (self shape : CollisionShape K)
    (h : needsMove E self shape = false) : movedSelf E self shape = self := by
  unfold movedSelf; rw [h]; rfl

theorem movedShape_of_noMove (E : Env K) (self shape : CollisionShape K)
    (h : needsMove E self shape = false) : movedShape E self shape = shape := by
  unfold movedShape; rw [h]; rfl

omit [FloorRing K] in
theorem orientMtd_dot_nonneg (a b : CollisionShape K) (m1 m2 : Vector2 K) :
    0 ≤ Dot (orientMtd a b m1 m2) (a.world.pos.sub b.world.pos) := by
  unfold orientMtd
  generalize (if LengthSquared m1 < LengthSquared m2 then m1 else m2) = m
  by_cases hpos : LengthSquared m > 0
  · rw [if_pos hpos]
    by_cases hneg : Dot m (a.world.pos.sub b.world.pos) < 0
    · rw [if_pos hneg]
      have : Dot m.neg (a.world.pos.sub b.world.pos) = -Dot m (a.world.pos.sub b.world.pos) := by
        simp only [Dot, Vector2.neg]; ring
      rw [this]
      linarith
    · rw [if_neg hneg]
      exact not_lt.mp hneg
  · rw [if_neg hpos]
    have h0 : LengthSquared m = 0 := le_antisymm (not_lt.mp hpos) (lengthSquared_nonneg m)
    rw [lengthSquared_eq_zero m h0]
    simp [Dot]

end Collision

/-! ## Intervals apart and separating axes -/

section Separation

variable {K : Type} [LinearOrderedField K]

theorem lt_foldl_min_iff (f : Vector2 K → K) (x : K) :
    ∀ (vs : List (Vector2 K)) (m : K),
      x < vs.foldl (fun m u => min m (f u)) m ↔ x < m ∧ ∀ u ∈ vs, x < f u := by
  intro vs
  induction vs with
  | nil => intro m; simp
  | cons v vs ih =>
    intro m
    rw [List.foldl_cons, ih, lt_min_iff]
    simp only [List.mem_cons, forall_eq_or_imp]
    tauto

theorem foldl_max_lt_iff (f : Vector2 K → K) (x : K) :
    ∀ (vs : List (Vector2 K)) (m : K),
      vs.foldl (fun m u => max m (f u)) m < x ↔ m < x ∧ ∀ u ∈ vs, f u < x := by
  intro vs
  induction vs with
  | nil => intro m; simp
  | cons v vs ih =>
    intro m
    rw [List.foldl_cons, ih, max_lt_iff]
    simp only [List.mem_cons, forall_eq_or_imp]
    tauto

theorem lt_minProj_iff (r : Vector2 K) (q : List (Vector2 K)) (hq : q ≠ []) (x : K) :
    x < minProj r q ↔ ∀ a ∈ q, x < Dot r a := by
  cases q with
  | nil => exact absurd rfl hq
  | cons v vs =>
    simp only [minProj]
    rw [lt_foldl_min_iff]
    simp only [scalerProject, List.mem_cons, forall_eq_or_imp]

theorem maxProj_lt_iff (r : Vector2 K) (q : List (Vector2 K)) (hq : q ≠ []) (x : K) :
    maxProj r q < x ↔ ∀ a ∈ q, Dot r a < x := by
  cases q with
  | nil => exact absurd rfl hq
  | cons v vs =>
    simp only [maxProj]
    rw [foldl_max_lt_iff]
    simp only [scalerProject, List.mem_cons, forall_eq_or_imp]

theorem intervalsApart_iff_separates (r : Vector2 K) (q1 q2 : List (Vector2 K))
    (h1 : q1 ≠ []) (h2 : q2 ≠ []) :
    intervalsApart r q1 q2 ↔ Separates r q1 q2 := by
  unfold intervalsApart Separates
  have ha : minProj r q1 > maxProj r q2 ↔ ∀ a ∈ q1, ∀ b ∈ q2, Dot r b < Dot r a := by
    rw [gt_iff_lt, lt_minProj_iff r q1 h1]
    constructor
    · intro h a ha b hb
      exact (maxProj_lt_iff r q2 h2 _).mp (h a ha) b hb
    · intro h a ha
      exact (maxProj_lt_iff r q2 h2 _).mpr (fun b hb => h a ha b hb)
  have hb : minProj r q2 > maxProj r q1 ↔ ∀ a ∈ q1, ∀ b ∈ q2, Dot r a < Dot r b := by
    rw [gt_iff_lt, lt_minProj_iff r q2 h2]
    constructor
    · intro h a ha b hb
      exact (maxProj_lt_iff r q1 h1 _).mp (h b hb) a ha
    · intro h b hb
      exact (maxProj_lt_iff r q1 h1 _).mpr (fun a ha => h a ha b hb)
  rw [ha, hb]
  exact or_comm

theorem Separates_comm (r : Vector2 K) (q1 q2 : List (Vector2 K)) :
    Separates r q1 q2 ↔ Separates r q2 q1 := by
  unfold Separates
  constructor
  · rintro (h | h)
    · exact Or.inr (fun a ha b hb => h b hb a ha)
    · exact Or.inl (fun a ha b hb => h b hb a ha)
  · rintro (h | h)
    · exact Or.inr (fun a ha b hb => h b hb a ha)
    · exact Or.inl (fun a ha b hb => h b hb a ha)

omit [LinearOrderedField K] in
theorem dropLast_ne_nil (p : List (Vector2 K)) (h : 2 ≤ p.length) : p.dropLast ≠ [] := by
  intro hnil
  have := congrArg List.length hnil
  rw [List.length_dropLast] at this
  simp at this
  omega

/-- With a sound square root, one pass of the separation test finds a separating
axis exactly when the normal of some edge of the polygon without its last
vertex separates the two vertex sets without their last vertices. -/
theorem pass_separable_iff (E : Env K) (hE : SqrtSound E) (p1 p2 : List (Vector2 K))
    (h1 : 2 ≤ p1.length) (h2 : 2 ≤ p2.length) :
    (∃ a ∈ unitNormals E p1.dropLast, intervalsApart a (seenVertices p1) (seenVertices p2)) ↔
      ∃ r ∈ edgeNormals p1.dropLast, Separates r p1.dropLast p2.dropLast := by
  rw [seenVertices_eq_dropLast p1 h1, seenVertices_eq_dropLast p2 h2]
  unfold unitNormals
  simp only [List.mem_map, exists_exists_and_eq_and]
  constructor
  · rintro ⟨r, hr, hs⟩
    exact ⟨r, hr, (intervalsApart_iff_separates r _ _ (dropLast_ne_nil p1 h1)
      (dropLast_ne_nil p2 h2)).mp ((intervalsApart_normalize E hE r _ _).mp hs)⟩
  · rintro ⟨r, hr, hs⟩
    exact ⟨r, hr, (intervalsApart_normalize E hE r _ _).mpr
      ((intervalsApart_iff_separates r _ _ (dropLast_ne_nil p1 h1)
        (dropLast_ne_nil p2 h2)).mpr hs)⟩

end Separation

/-! ## Evaluating `CheckCollision` on rational data -/

section Scenario

variable {K : Type} [LinearOrderedField K] [FloorRing K]

theorem real_sqrtSound (c s : ℝ → ℝ) (w h : ℝ) : SqrtSound (Env.mk Real.sqrt c s w h) := by
  intro x hx
  exact ⟨Real.sqrt_pos.mpr hx, Real.mul_self_sqrt hx.le⟩

omit [FloorRing K] in
theorem GetTransformedPoints_placed (E : Env K) (hc : E.cos 0 = 1) (hs : E.sin 0 = 0)
    (pts : List (Vector2 ℚ)) (pos : Vector2 ℚ) (w : Bool) :
    (CollisionShape.mk (pts.map Vector2.ofRat) (placedAt pos.ofRat) w).GetTransformedPoints E =
      (pts.map (fun p => p.add pos)).map Vector2.ofRat := by
  simp [CollisionShape.GetTransformedPoints, World.TransformPoint, placedAt, hc, hs,
    Vector2.ofRat, Vector2.add]

/-- `CheckCollision` from the two runs of `satRaw` on the rational world vertices. -/
theorem CheckCollision_of_sat (E : Env K) (hE : SqrtSound E) (self shape : CollisionShape K)
    (out0 : Vector2 K) (V1 V2 : List (Vector2 ℚ))
    (hV1 : (movedSelf E self shape).GetTransformedPoints E = V1.map Vector2.ofRat)
    (hV2 : (movedShape E self shape).GetTransformedPoints E = V2.map Vector2.ofRat)
    (h1 : 2 ≤ V1.length) (hf1 : V1.length ≤ 2 ^ 32)
    (h2 : 2 ≤ V2.length) (hf2 : V2.length ≤ 2 ^ 32) :
    CheckCollision E self shape out0 =
      match satRaw V1 V2 ⟨0, 0⟩ with
      | none => none
      | some (true, _) =>
        some (restoreBoth E (moveDistanceOf E self shape)
          (movedSelf E self shape) (movedShape E self shape) false out0)
      | some (false, m1) =>
        match satRaw V2 V1 ⟨0, 0⟩ with
        | none => none
        | some (true, _) =>
          some (restoreBoth E (moveDistanceOf E self shape)
            (movedSelf E self shape) (movedShape E self shape) false out0)
        | some (false, m2) =>
          some (restoreBoth E (moveDistanceOf E self shape)
            (movedSelf E self shape) (movedShape E self shape) true
            (orientMtd (movedSelf E self shape) (movedShape E self shape)
              m1.ofRat m2.ofRat)) := by
  have hz : (⟨0, 0⟩ : Vector2 K) = Vector2.ofRat ⟨0, 0⟩ := by simp [Vector2.ofRat]
  have g1 : FitsUInt (V1.map (Vector2.ofRat : Vector2 ℚ → Vector2 K)) := by
    unfold FitsUInt; rw [List.length_map]; exact hf1
  have g2 : FitsUInt (V2.map (Vector2.ofRat : Vector2 ℚ → Vector2 K)) := by
    unfold FitsUInt; rw [List.length_map]; exact hf2
  unfold CheckCollision
  rw [hV1, hV2,
    CheckPointListSeperability_eq_satRaw E hE _ _ _ (by rw [List.length_map]; exact h1)
      g1.fitsSizeT (by rw [List.length_map]; omega) g2,
    CheckPointListSeperability_eq_satRaw E hE _ _ _ (by rw [List.length_map]; exact h2)
      g2.fitsSizeT (by rw [List.length_map]; omega) g1,
    hz, satRaw_ofRat, satRaw_ofRat]
  cases satRaw V1 V2 ⟨0, 0⟩ with
  | none => rfl
  | some p =>
    obtain ⟨b, m1⟩ := p
    cases b with
    | true => rfl
    | false =>
      simp only [Option.map_some']
      cases satRaw V2 V1 ⟨0, 0⟩ with
      | none => rfl
      | some p2 =>
        obtain ⟨b2, m2⟩ := p2
        cases b2 <;> rfl

omit [FloorRing K] in
theorem triangleA_ofRat :
    (triangleA : List (Vector2 K)) = (triangleA : List (Vector2 ℚ)).map Vector2.ofRat := by
  simp [triangleA, Vector2.ofRat]

omit [FloorRing K] in
theorem triangleB_ofRat :
    (triangleB : List (Vector2 K)) = (triangleB : List (Vector2 ℚ)).map Vector2.ofRat := by
  simp [triangleB, Vector2.ofRat]

omit [FloorRing K] in
theorem zero_ofRat : (⟨0, 0⟩ : Vector2 K) = Vector2.ofRat ⟨0, 0⟩ := by
  simp [Vector2.ofRat]

/-- C1 fails as worded, on the triangles `(0,0), (1,0), (0,1)` and
`(0,5), (1,5), (1/4,1/4)` (no wrap, identity placement): the last vertex of the
second lies inside the first, so no normal of an edge of either closed triangle
separates the two vertex sets, yet `CheckCollision` returns false. -/
theorem checkCollision_misses_last_vertex :
    needsMove (Env.mk Real.sqrt Real.cos Real.sin 100 100)
      ⟨triangleA, placedAt ⟨0, 0⟩, false⟩ ⟨triangleB, placedAt ⟨0, 0⟩, false⟩ = false ∧
    (∃ r, CheckCollision (Env.mk Real.sqrt Real.cos Real.sin 100 100)
        ⟨triangleA, placedAt ⟨0, 0⟩, false⟩ ⟨triangleB, placedAt ⟨0, 0⟩, false⟩ ⟨0, 0⟩ = some r ∧
      r.ret = false) ∧
    ∀ axis ∈
        edgeNormals ((CollisionShape.mk triangleA (placedAt ⟨0, 0⟩) false).GetTransformedPoints
          (Env.mk Real.sqrt Real.cos Real.sin 100 100)) ++
        edgeNormals ((CollisionShape.mk triangleB (placedAt ⟨0, 0⟩) false).GetTransformedPoints
          (Env.mk Real.sqrt Real.cos Real.sin 100 100)),
      ¬ Separates axis
        ((CollisionShape.mk triangleA (placedAt ⟨0, 0⟩) false).GetTransformedPoints
          (Env.mk Real.sqrt Real.cos Real.sin 100 100))
        ((CollisionShape.mk triangleB (placedAt ⟨0, 0⟩) false).GetTransformedPoints
          (Env.mk Real.sqrt Real.cos Real.sin 100 100)) := by
  have hm : needsMove (Env.mk Real.sqrt Real.cos Real.sin 100 100)
      ⟨triangleA, placedAt ⟨0, 0⟩, false⟩ ⟨triangleB, placedAt ⟨0, 0⟩, false⟩ = false :=
    needsMove_false_of_noWrap _ _ _ rfl
  have hVA : (CollisionShape.mk (triangleA : List (Vector2 ℝ)) (placedAt ⟨0, 0⟩)
        false).GetTransformedPoints (Env.mk Real.sqrt Real.cos Real.sin 100 100) =
      ((triangleA : List (Vector2 ℚ)).map (fun p => p.add ⟨0, 0⟩)).map Vector2.ofRat := by
    rw [triangleA_ofRat, zero_ofRat]
    exact GetTransformedPoints_placed _ Real.cos_zero Real.sin_zero _ _ _
  have hVB : (CollisionShape.mk (triangleB : List (Vector2 ℝ)) (placedAt ⟨0, 0⟩)
        false).GetTransformedPoints (Env.mk Real.sqrt Real.cos Real.sin 100 100) =
      ((triangleB : List (Vector2 ℚ)).map (fun p => p.add ⟨0, 0⟩)).map Vector2.ofRat := by
    rw [triangleB_ofRat, zero_ofRat]
    exact GetTransformedPoints_placed _ Real.cos_zero Real.sin_zero _ _ _
  refine ⟨hm, ?_, ?_⟩
  · rw [CheckCollision_of_sat _ (real_sqrtSound _ _ _ _) _ _ _
      ((triangleA : List (Vector2 ℚ)).map (fun p => p.add ⟨0, 0⟩))
      ((triangleB : List (Vector2 ℚ)).map (fun p => p.add ⟨0, 0⟩))
      (by rw [movedSelf_of_noMove _ _ _ hm]; exact hVA)
      (by rw [movedShape_of_noMove _ _ _ hm]; exact hVB)
      (by decide) (by simp [triangleA]) (by decide) (by simp [triangleB])]
    have hsat : satRaw ((triangleA : List (Vector2 ℚ)).map (fun p => p.add ⟨0, 0⟩))
        ((triangleB : List (Vector2 ℚ)).map (fun p => p.add ⟨0, 0⟩)) ⟨0, 0⟩
        = some (true, ⟨0, 0⟩) := by decide!
    rw [hsat]
    exact ⟨_, rfl, rfl⟩
  · rw [hVA, hVB, edgeNormals_ofRat, edgeNormals_ofRat]
    have hq : ∀ axis ∈
        edgeNormals ((triangleA : List (Vector2 ℚ)).map (fun p => p.add ⟨0, 0⟩)) ++
        edgeNormals ((triangleB : List (Vector2 ℚ)).map (fun p => p.add ⟨0, 0⟩)),
        ¬ Separates axis ((triangleA : List (Vector2 ℚ)).map (fun p => p.add ⟨0, 0⟩))
          ((triangleB : List (Vector2 ℚ)).map (fun p => p.add ⟨0, 0⟩)) := by decide!
    intro axis hax
    rw [← List.map_append, List.mem_map] at hax
    obtain ⟨r, hr, rfl⟩ := hax
    rw [Separates_ofRat]
    exact hq r hr

end Scenario

/-! ## Concrete calls -/

section Concrete

variable {K : Type} [LinearOrderedField K] [FloorRing K]

omit [FloorRing K] in
theorem length_le_of_sq (E : Env K) (hE : SqrtSound E) (v : Vector2 K) (a : K)
    (hv : 0 < LengthSquared v) (ha : 0 ≤ a) (h : LengthSquared v ≤ a * a) :
    Length E v ≤ a :=
  sqrt_le_of_le_sq E hE _ a hv ha h

omit [FloorRing K] in
theorem le_length_of_sq (E : Env K) (hE : SqrtSound E) (v : Vector2 K) (d : K)
    (hv : 0 < LengthSquared v) (h : d * d ≤ LengthSquared v) :
    d ≤ Length E v :=
  le_sqrt_of_sq_le E hE _ d hv h

theorem wrapCoord_eval (w v : K) (n : ℤ) (hw : 0 < w) (h0 : (n : K) * w ≤ v)
    (h1 : v < ((n : K) + 1) * w) : wrapCoord w v = v - w * (n : K) := by
  have hfl : ⌊v / w⌋ = n := by
    rw [Int.floor_eq_iff]
    exact ⟨(le_div_iff₀ hw).mpr h0, (div_lt_iff₀ hw).mpr h1⟩
  unfold wrapCoord
  rw [hfl]

omit [FloorRing K] in
theorem barH_ofRat :
    (barH : List (Vector2 K)) = (barH : List (Vector2 ℚ)).map Vector2.ofRat := by
  simp [barH, Vector2.ofRat]

omit [FloorRing K] in
theorem barV_ofRat :
    (barV : List (Vector2 K)) = (barV : List (Vector2 ℚ)).map Vector2.ofRat := by
  simp [barV, Vector2.ofRat]

omit [FloorRing K] in
theorem unitSquare_ofRat :
    (unitSquare : List (Vector2 K)) = (unitSquare : List (Vector2 ℚ)).map Vector2.ofRat := by
  simp [unitSquare, Vector2.ofRat]

omit [FloorRing K] in
theorem unitSquareClosed_ofRat :
    (unitSquareClosed : List (Vector2 K)) =
      (unitSquareClosed : List (Vector2 ℚ)).map Vector2.ofRat := by
  simp [unitSquareClosed, Vector2.ofRat]

/-- With `self` at the origin the first block of `CheckCollision` changes nothing,
whether or not it is entered, when `shape` lies in the domain. -/
theorem moved_of_selfAtOrigin (E : Env K) (pts1 pts2 : List (Vector2 K)) (pos2 : Vector2 K)
    (w1 w2 : Bool) (ho : InDomain E pos2) :
    movedSelf E ⟨pts1, placedAt ⟨0, 0⟩, w1⟩ ⟨pts2, placedAt pos2, w2⟩
      = ⟨pts1, placedAt ⟨0, 0⟩, w1⟩ ∧
    movedShape E ⟨pts1, placedAt ⟨0, 0⟩, w1⟩ ⟨pts2, placedAt pos2, w2⟩
      = ⟨pts2, placedAt pos2, w2⟩ := by
  cases hm : needsMove E ⟨pts1, placedAt ⟨0, 0⟩, w1⟩ ⟨pts2, placedAt pos2, w2⟩ with
  | false => exact ⟨movedSelf_of_noMove _ _ _ hm, movedShape_of_noMove _ _ _ hm⟩
  | true =>
    unfold movedSelf movedShape
    rw [hm]
    have hsub : pos2.sub (⟨0, 0⟩ : Vector2 K) = pos2 := by simp [Vector2.sub]
    simp only [if_true, placedAt, hsub, WrapVector2_of_inDomain E _ ho]
    simp [Vector2.sub]

/-- A call with `self` at the origin and `shape` in the domain, identity rotation
and scale, rational data, and no separating axis in either pass. -/
theorem checkCollision_selfAtOrigin (E : Env K) (hE : SqrtSound E)
    (hc : E.cos 0 = 1) (hs : E.sin 0 = 0)
    (pts1 pts2 : List (Vector2 ℚ)) (pos2 m1 m2 : Vector2 ℚ) (w1 w2 : Bool) (out0 : Vector2 K)
    (hz : InDomain E (⟨0, 0⟩ : Vector2 K)) (ho : InDomain E (pos2.ofRat : Vector2 K))
    (h1 : 2 ≤ pts1.length) (hf1 : pts1.length ≤ 2 ^ 32)
    (h2 : 2 ≤ pts2.length) (hf2 : pts2.length ≤ 2 ^ 32)
    (hs1 : satRaw (pts1.map (fun p => p.add ⟨0, 0⟩)) (pts2.map (fun p => p.add pos2)) ⟨0, 0⟩
      = some (false, m1))
    (hs2 : satRaw (pts2.map (fun p => p.add pos2)) (pts1.map (fun p => p.add ⟨0, 0⟩)) ⟨0, 0⟩
      = some (false, m2)) :
    CheckCollision E ⟨pts1.map Vector2.ofRat, placedAt ⟨0, 0⟩, w1⟩
        ⟨pts2.map Vector2.ofRat, placedAt pos2.ofRat, w2⟩ out0 =
      some ⟨true,
        orientMtd (CollisionShape.mk (pts1.map Vector2.ofRat) (placedAt ⟨0, 0⟩) w1)
          (CollisionShape.mk (pts2.map Vector2.ofRat) (placedAt pos2.ofRat) w2)
          m1.ofRat m2.ofRat,
        ⟨pts1.map Vector2.ofRat, placedAt ⟨0, 0⟩, w1⟩,
        ⟨pts2.map Vector2.ofRat, placedAt pos2.ofRat, w2⟩⟩ := by
  obtain ⟨hms, hmo⟩ := moved_of_selfAtOrigin E (pts1.map Vector2.ofRat)
    (pts2.map Vector2.ofRat) pos2.ofRat w1 w2 ho
  rw [CheckCollision_of_sat E hE _ _ out0 (pts1.map (fun p => p.add ⟨0, 0⟩))
      (pts2.map (fun p => p.add pos2))
      (by rw [hms, zero_ofRat]; exact GetTransformedPoints_placed E hc hs _ _ _)
      (by rw [hmo]; exact GetTransformedPoints_placed E hc hs _ _ _)
      (by rw [List.length_map]; exact h1) (by rw [List.length_map]; exact hf1)
      (by rw [List.length_map]; exact h2) (by rw [List.length_map]; exact hf2),
    hs1, hs2]
  simp only []
  rw [restoreBoth_of_inDomain E _ _ _ _ hz ho, hms, hmo]

/-- The bars: `self` is `barH` at `(99,99)` with `wrapAround` set, `shape` is `barV`
at `(1,1)`, in a world of 100 by 100. The wrap repositioning is applied and the
call returns true with the resolution `(-1, 0)`. -/
theorem checkCollision_bars (E : Env K) (hE : SqrtSound E)
    (hc : E.cos 0 = 1) (hs : E.sin 0 = 0)
    (hW : E.WORLD_WIDTH = 100) (hH : E.WORLD_HEIGHT = 100) (w2 : Bool) (out0 : Vector2 K) :
    needsMove E ⟨barH, placedAt ⟨99, 99⟩, true⟩ ⟨barV, placedAt ⟨1, 1⟩, w2⟩ = true ∧
    movedSelf E ⟨barH, placedAt ⟨99, 99⟩, true⟩ ⟨barV, placedAt ⟨1, 1⟩, w2⟩
      = ⟨barH, placedAt ⟨0, 0⟩, true⟩ ∧
    movedShape E ⟨barH, placedAt ⟨99, 99⟩, true⟩ ⟨barV, placedAt ⟨1, 1⟩, w2⟩
      = ⟨barV, placedAt ⟨2, 2⟩, w2⟩ ∧
    CheckCollision E ⟨barH, placedAt ⟨99, 99⟩, true⟩ ⟨barV, placedAt ⟨1, 1⟩, w2⟩ out0 =
      some ⟨true, ⟨-1, 0⟩, ⟨barH, placedAt ⟨99, 99⟩, true⟩, ⟨barV, placedAt ⟨1, 1⟩, w2⟩⟩ := by
  have hm : needsMove E ⟨barH, placedAt ⟨99, 99⟩, true⟩ ⟨barV, placedAt ⟨1, 1⟩, w2⟩ = true := by
    refine needsMove_of_gap E _ _ rfl ⟨-100, -100⟩ (by simp [wrapOffsets, hW, hH]) 3 138
      ?_ ?_ (by norm_num)
    · refine length_le_of_sq E hE _ 3 ?_ (by norm_num) ?_ <;>
        (simp only [placedAt, LengthSquared, Vector2.add, Vector2.sub]; norm_num)
    · unfold distanceBetween
      refine le_length_of_sq E hE _ 138 ?_ ?_ <;>
        (simp only [placedAt, LengthSquared, Vector2.sub]; norm_num)
  have hw98 : wrapCoord (100 : K) (1 - 99) = 2 := by
    rw [wrapCoord_eval 100 (1 - 99) (-1) (by norm_num) (by norm_num) (by norm_num)]
    norm_num
  have hself : movedSelf E ⟨barH, placedAt ⟨99, 99⟩, true⟩ ⟨barV, placedAt ⟨1, 1⟩, w2⟩
      = ⟨barH, placedAt ⟨0, 0⟩, true⟩ := by
    unfold movedSelf
    rw [hm]
    simp [placedAt, Vector2.sub]
  have hshape : movedShape E ⟨barH, placedAt ⟨99, 99⟩, true⟩ ⟨barV, placedAt ⟨1, 1⟩, w2⟩
      = ⟨barV, placedAt ⟨2, 2⟩, w2⟩ := by
    unfold movedShape
    rw [hm]
    simp only [if_true, placedAt, Vector2.sub, WrapVector2, hW, hH, hw98]
  refine ⟨hm, hself, hshape, ?_⟩
  have h2 : (⟨2, 2⟩ : Vector2 K) = Vector2.ofRat ⟨2, 2⟩ := by simp [Vector2.ofRat]
  rw [CheckCollision_of_sat E hE _ _ out0 ((barH : List (Vector2 ℚ)).map (fun p => p.add ⟨0, 0⟩))
      ((barV : List (Vector2 ℚ)).map (fun p => p.add ⟨2, 2⟩))
      (by rw [hself, barH_ofRat, zero_ofRat]; exact GetTransformedPoints_placed E hc hs _ _ _)
      (by rw [hshape, barV_ofRat, h2]; exact GetTransformedPoints_placed E hc hs _ _ _)
      (by decide) (by simp [barH]) (by decide) (by simp [barV]),
    show satRaw ((barH : List (Vector2 ℚ)).map (fun p => p.add ⟨0, 0⟩))
        ((barV : List (Vector2 ℚ)).map (fun p => p.add ⟨2, 2⟩)) ⟨0, 0⟩
        = some (false, ⟨0, 1⟩) from by decide!,
    show satRaw ((barV : List (Vector2 ℚ)).map (fun p => p.add ⟨2, 2⟩))
        ((barH : List (Vector2 ℚ)).map (fun p => p.add ⟨0, 0⟩)) ⟨0, 0⟩
        = some (false, ⟨-1, 0⟩) from by decide!]
  simp only []
  rw [restoreBoth_of_inDomain E _ _ _ _
      (by simp only [InDomain, placedAt, hW, hH]; norm_num)
      (by simp only [InDomain, placedAt, hW, hH]; norm_num),
    hself, hshape]
  have ho : orientMtd (CollisionShape.mk (barH : List (Vector2 K)) (placedAt ⟨0, 0⟩) true)
      (CollisionShape.mk (barV : List (Vector2 K)) (placedAt ⟨2, 2⟩) w2)
      (Vector2.ofRat ⟨0, 1⟩) (Vector2.ofRat ⟨-1, 0⟩) = ⟨-1, 0⟩ := by
    simp only [orientMtd, LengthSquared, Dot, Vector2.ofRat, Vector2.sub, Vector2.neg, placedAt]
    norm_num
  rw [ho]

end Concrete

/-! ## Totality and the selected candidate (C10, C8), `Initialize` (C5) -/

section ClaimsA

variable {K : Type} [LinearOrderedField K]

/-- C10, for a second list the counter can scan: for vertex lists `p1`, `p2` of
at least 3 vertices each, `p2` of at most `2 ^ 32` (so that the `unsigned int`
counter of the second projection loop reaches its bound),
`CheckPointListSeperability` has no undefined step and returns: the modulus
`p1.size() - 1` is not zero, in every pass `i` of the edge loop the indices `i`
and `(i + 1) % (p1.size() - 1)` lie inside `p1` and the pass completes (all its
reads of `p1` and `p2` succeed, both projection loops end), `mtds` is not empty
when the edge loop ends without a separating axis, and the call returns a
result. -/
theorem checkPointListSeperability_total (E : Env K) (p1 p2 : List (Vector2 K))
    (out0 : Vector2 K)
    (h1 : 3 ≤ p1.length) (hf1 : FitsSizeT p1) (h2 : 3 ≤ p2.length) (hf2 : FitsUInt p2) :
    sizeMinusOne p1.length ≠ 0 ∧
    (∀ i, i < sizeMinusOne p1.length →
      i < p1.length ∧ (i + 1) % sizeMinusOne p1.length < p1.length ∧
      ∃ r, axisStep E p1 p2 i = some r) ∧
    (∀ j, j < sizeMinusOne p1.length → j < p1.length) ∧
    (∀ j, j < sizeMinusOne p2.length → j < p2.length) ∧
    (∀ mtds, edgeLoop E p1 p2 (sizeMinusOne p1.length) 0 [] = some (false, mtds) → mtds ≠ []) ∧
    ∃ r, CheckPointListSeperability E p1 p2 out0 = some r := by
  have hf1' := hf1
  have hf2' := hf2
  unfold FitsSizeT at hf1'
  unfold FitsUInt at hf2'
  have hn1 : sizeMinusOne p1.length = p1.length - 1 := sizeMinusOne_of_pos (by omega) hf1'
  have hn2 : sizeMinusOne p2.length = p2.length - 1 :=
    sizeMinusOne_of_pos (by omega) (by omega)
  rw [hn1, hn2]
  refine ⟨by omega, ?_, fun j hj => by omega, fun j hj => by omega, ?_, ?_⟩
  · intro i hi
    have hmod : (i + 1) % (p1.length - 1) < p1.length - 1 := Nat.mod_lt _ (by omega)
    exact ⟨by omega, by omega,
      ⟨_, axisStep_eq E p1 p2 i (by omega) hf1 (by omega) hf2 hi⟩⟩
  · intro mtds hm
    rw [← hn1, edgeLoop_full E p1 p2 (by omega) hf1 (by omega) hf2] at hm
    have hsnd := scanAxes_snd (seenVertices p1) (seenVertices p2) (unitNormals E p1.dropLast) []
    have hscan := Option.some.inj hm
    rw [hscan] at hsnd
    have hm2 := hsnd rfl
    simp only [List.nil_append] at hm2
    intro hnil
    rw [hnil] at hm2
    exact unitNormals_ne_nil E p1 (by omega) (List.map_eq_nil_iff.mp hm2.symm)
  · rcases CheckPointListSeperability_eq E p1 p2 out0 (by omega) hf1 (by omega) hf2 with
      ⟨_, m0, rest, _, hres⟩ | ⟨_, hres⟩
    · exact ⟨_, hres⟩
    · exact ⟨_, hres⟩

/-- C10, for a second list the counter can scan, at a concrete input: the bars
`barH` and `barV`, on which the edge loop finds no separating axis and the call
goes on to `outMtd = mtds[0]`. -/
theorem checkPointListSeperability_total_witness :
    sizeMinusOne (barH : List (Vector2 ℝ)).length ≠ 0 ∧
    (∀ i, i < sizeMinusOne (barH : List (Vector2 ℝ)).length →
      i < (barH : List (Vector2 ℝ)).length ∧
      (i + 1) % sizeMinusOne (barH : List (Vector2 ℝ)).length
        < (barH : List (Vector2 ℝ)).length ∧
      ∃ r, axisStep (Env.mk Real.sqrt Real.cos Real.sin 100 100) barH barV i
        = some r) ∧
    (∀ j, j < sizeMinusOne (barH : List (Vector2 ℝ)).length →
      j < (barH : List (Vector2 ℝ)).length) ∧
    (∀ j, j < sizeMinusOne (barV : List (Vector2 ℝ)).length →
      j < (barV : List (Vector2 ℝ)).length) ∧
    (∀ mtds, edgeLoop (Env.mk Real.sqrt Real.cos Real.sin 100 100) barH barV
        (sizeMinusOne (barH : List (Vector2 ℝ)).length) 0 [] = some (false, mtds) →
      mtds ≠ []) ∧
    ∃ r, CheckPointListSeperability (Env.mk Real.sqrt Real.cos Real.sin 100 100)
      barH barV ⟨0, 0⟩ = some r :=
  checkPointListSeperability_total _ barH barV ⟨0, 0⟩
    (by simp [barH]) (by simp [FitsSizeT, barH])
    (by simp [barV]) (by simp [FitsUInt, barV])

theorem longList_length : (longList : List (Vector2 K)).length = 2 ^ 32 + 1 := by
  unfold longList
  exact List.length_replicate _ _

/-- C8: when `CheckPointListSeperability` returns false (no separating axis), the
list `mtds` the edge loop has built is the list of the recorded candidates
`axis_i * min(max1_i - min2_i, max2_i - min1_i)`, the vector written to `outMtd`
is one of them, and no recorded candidate has a smaller squared length. -/
theorem outMtd_least_recorded_candidate (E : Env K) (p1 p2 : List (Vector2 K))
    (out0 out : Vector2 K) (hf1 : FitsSizeT p1) (hf2 : FitsSizeT p2)
    (h : CheckPointListSeperability E p1 p2 out0 = some (false, out)) :
    edgeLoop E p1 p2 (sizeMinusOne p1.length) 0 [] =
      some (false, recordedCandidates E p1 p2) ∧
    out ∈ recordedCandidates E p1 p2 ∧
    ∀ c ∈ recordedCandidates E p1 p2, LengthSquared out ≤ LengthSquared c := by
  obtain ⟨h1, h2, hu⟩ := CheckPointListSeperability_some_fits E p1 p2 out0 _ hf1 hf2 h
  have hloop : edgeLoop E p1 p2 (sizeMinusOne p1.length) 0 [] =
      some (false, recordedCandidates E p1 p2) := by
    have hfull := edgeLoop_full E p1 p2 h1 hf1 h2 hu
    have hsnd := scanAxes_snd (seenVertices p1) (seenVertices p2) (unitNormals E p1.dropLast) []
    unfold CheckPointListSeperability at h
    rw [hfull] at h
    rw [hfull]
    rcases hscan : scanAxes (seenVertices p1) (seenVertices p2) (unitNormals E p1.dropLast) []
      with ⟨b, mtds⟩
    rw [hscan] at h hsnd
    cases b with
    | true =>
      have := (Prod.mk.inj (Option.some.inj h)).1
      cases this
    | false =>
      have hm := hsnd rfl
      simp only [List.nil_append] at hm
      rw [hm]
      rfl
  refine ⟨hloop, ?_⟩
  rcases CheckPointListSeperability_eq E p1 p2 out0 h1 hf1 h2 hu with
    ⟨_, m0, rest, hrec, hres⟩ | ⟨_, hres⟩
  · rw [hres] at h
    have hout : minLoop m0 rest = out := by
      have := Option.some.inj h
      exact (Prod.mk.inj this).2
    rw [hrec, ← hout]
    exact ⟨minLoop_mem m0 rest, minLoop_le m0 rest⟩
  · rw [hres] at h
    have := (Prod.mk.inj (Option.some.inj h)).1
    cases this

end ClaimsA

/-- C10, the code on a long second list. For `p1` the triangle `triangleA` and `p2`
the list `longList` of `2 ^ 32 + 1` vertices (both of at least 3 vertices, both
fitting `size_t`), the bound `p2.size() - 1` of the second projection loop is
`2 ^ 32`. Every value `j < 2 ^ 32` of its `unsigned int` counter is an index
inside `p2` and lies below the bound: no read is out of bounds, the loop never
ends, whatever the fuel, and the call returns no result. With the two lists
exchanged the same list is scanned by the first projection loop, which counts
with `size_t`, and the call returns. -/
theorem second_projection_loop_never_ends :
    3 ≤ (triangleA : List (Vector2 ℝ)).length ∧
    3 ≤ (longList : List (Vector2 ℝ)).length ∧
    FitsSizeT (triangleA : List (Vector2 ℝ)) ∧
    FitsSizeT (longList : List (Vector2 ℝ)) ∧
    sizeMinusOne (longList : List (Vector2 ℝ)).length = 2 ^ 32 ∧
    (∀ j, j < 2 ^ 32 → j < (longList : List (Vector2 ℝ)).length) ∧
    (∀ (sep : Vector2 ℝ) (fuel j : Nat) (tMax tMin : ℝ), j < 2 ^ 32 →
      projLoopUInt sep longList (sizeMinusOne (longList : List (Vector2 ℝ)).length)
        fuel j tMax tMin = none) ∧
    CheckPointListSeperability (Env.mk Real.sqrt Real.cos Real.sin 100 100)
      triangleA longList ⟨0, 0⟩ = none ∧
    ∃ r, CheckPointListSeperability (Env.mk Real.sqrt Real.cos Real.sin 100 100)
      longList triangleA ⟨0, 0⟩ = some r := by
  have hlen : (longList : List (Vector2 ℝ)).length = 2 ^ 32 + 1 := longList_length
  have hA : (triangleA : List (Vector2 ℝ)).length = 3 := rfl
  have hfA : FitsSizeT (triangleA : List (Vector2 ℝ)) := by
    unfold FitsSizeT; rw [hA]; omega
  have hfL : FitsSizeT (longList : List (Vector2 ℝ)) := by
    unfold FitsSizeT; rw [hlen]; omega
  have huA : FitsUInt (triangleA : List (Vector2 ℝ)) := by
    unfold FitsUInt; rw [hA]; omega
  have hlong : ¬ FitsUInt (longList : List (Vector2 ℝ)) := by
    unfold FitsUInt; rw [hlen]; omega
  have hb : sizeMinusOne (longList : List (Vector2 ℝ)).length = 2 ^ 32 := by
    rw [sizeMinusOne_of_pos (by rw [hlen]; omega) hfL, hlen]
    omega
  refine ⟨by rw [hA], by rw [hlen]; omega, hfA, hfL, hb,
    fun j hj => by rw [hlen]; omega, ?_, ?_, ?_⟩
  · intro sep fuel j tMax tMin hj
    exact projLoopUInt_never_ends sep longList _ (by rw [hb]) fuel j tMax tMin hj
  · exact CheckPointListSeperability_long_right _ _ _ _ (by rw [hA]; omega) hfA hlong hfL
  · rcases CheckPointListSeperability_eq (Env.mk Real.sqrt Real.cos Real.sin 100 100)
        longList triangleA ⟨0, 0⟩ (by rw [hlen]; omega) hfL (by rw [hA]; omega) huA with
      ⟨_, m0, rest, _, hres⟩ | ⟨_, hres⟩
    · exact ⟨_, hres⟩
    · exact ⟨_, hres⟩

/-- C5 fails as worded, at the empty point list: `Initialize` completes and
leaves the polygon empty, where the spec's `setGeometry` fails with
`InvalidGeometry`. -/
theorem initialize_accepts_short_list :
    ((freshShape : CollisionShape ℝ).Initialize []).points = [] ∧
    setGeometry (freshShape : CollisionShape ℝ) [] =
      Except.error GeometryError.InvalidGeometry ∧
    ¬ (setGeometry (freshShape : CollisionShape ℝ) [] =
      Except.ok ((freshShape : CollisionShape ℝ).Initialize [])) := by
  refine ⟨rfl, by simp [setGeometry], ?_⟩
  simp [setGeometry]

/-- C5, amended: `Initialize` has no failure path; for every point list, of any
length, it leaves the polygon replaced by the given list, and the placement and
the wrap flag as they were. -/
theorem initialize_replaces_points {K : Type} (s : CollisionShape K) (newPoints : List (Vector2 K)) :
    (s.Initialize newPoints).points = newPoints ∧
    (s.Initialize newPoints).world = s.world ∧
    (s.Initialize newPoints).wrapAround = s.wrapAround :=
  ⟨rfl, rfl, rfl⟩

/-! ## The claims on `CheckCollision` that hold for all inputs -/

section ClaimsB

variable {K : Type} [LinearOrderedField K] [FloorRing K]

/-- C1, amended: for two polygons of at least 3 vertices each (exact arithmetic
with a sound square root, no wrap repositioning triggered), whenever
`CheckCollision` returns, it returns true exactly when no normal of an edge of
either closed polygon formed by all vertices but the last (edge `i` joins vertex
`i` to vertex `i + 1`, vertex `n - 2` joining back to vertex 0) separates the
world-space vertices but the last of the one polygon from those of the other;
and the call does return when neither polygon has more than `2 ^ 32` vertices,
the range of the `unsigned int` counter of the second projection loop. -/
theorem checkCollision_iff_no_separating_axis (E : Env K) (hE : SqrtSound E)
    (self shape : CollisionShape K) (out0 : Vector2 K)
    (h1 : 3 ≤ self.points.length) (hf1 : FitsSizeT self.points)
    (h2 : 3 ≤ shape.points.length) (hf2 : FitsSizeT shape.points)
    (hmove : needsMove E self shape = false) :
    (∀ r, CheckCollision E self shape out0 = some r →
      (r.ret = true ↔
        ∀ axis ∈ edgeNormals (self.GetTransformedPoints E).dropLast ++
            edgeNormals (shape.GetTransformedPoints E).dropLast,
          ¬ Separates axis (self.GetTransformedPoints E).dropLast
            (shape.GetTransformedPoints E).dropLast)) ∧
    (FitsUInt self.points ∧ FitsUInt shape.points →
      ∃ r, CheckCollision E self shape out0 = some r ∧
        (r.ret = true ↔
          ∀ axis ∈ edgeNormals (self.GetTransformedPoints E).dropLast ++
              edgeNormals (shape.GetTransformedPoints E).dropLast,
            ¬ Separates axis (self.GetTransformedPoints E).dropLast
              (shape.GetTransformedPoints E).dropLast)) := by
  have l1 : 2 ≤ (self.GetTransformedPoints E).length := by
    rw [GetTransformedPoints_length]; omega
  have l2 : 2 ≤ (shape.GetTransformedPoints E).length := by
    rw [GetTransformedPoints_length]; omega
  have hp1 := pass_separable_iff E hE _ _ l1 l2
  have hp2 := pass_separable_iff E hE _ _ l2 l1
  have hrhs : (∀ axis ∈ edgeNormals (self.GetTransformedPoints E).dropLast ++
        edgeNormals (shape.GetTransformedPoints E).dropLast,
      ¬ Separates axis (self.GetTransformedPoints E).dropLast
        (shape.GetTransformedPoints E).dropLast) ↔
      (¬ (∃ r ∈ edgeNormals (self.GetTransformedPoints E).dropLast,
          Separates r (self.GetTransformedPoints E).dropLast
            (shape.GetTransformedPoints E).dropLast) ∧
       ¬ (∃ r ∈ edgeNormals (shape.GetTransformedPoints E).dropLast,
          Separates r (shape.GetTransformedPoints E).dropLast
            (self.GetTransformedPoints E).dropLast)) := by
    simp only [List.mem_append, not_exists, not_and]
    constructor
    · intro h
      exact ⟨fun r hr => h r (Or.inl hr),
        fun r hr hs => h r (Or.inr hr) ((Separates_comm r _ _).mp hs)⟩
    · rintro ⟨ha, hb⟩ r (hr | hr)
      · exact ha r hr
      · exact fun hs => hb r hr ((Separates_comm r _ _).mp hs)
  have hfun : ∀ r, CheckCollision E self shape out0 = some r →
      (r.ret = true ↔
        ∀ axis ∈ edgeNormals (self.GetTransformedPoints E).dropLast ++
            edgeNormals (shape.GetTransformedPoints E).dropLast,
          ¬ Separates axis (self.GetTransformedPoints E).dropLast
            (shape.GetTransformedPoints E).dropLast) := by
    intro r hr
    have hiff := CheckCollision_ret_iff E self shape out0 r hf1 hf2 hr
    rw [movedSelf_of_noMove E self shape hmove, movedShape_of_noMove E self shape hmove,
      hp1, hp2] at hiff
    rw [hrhs]
    exact hiff
  refine ⟨hfun, ?_⟩
  rintro ⟨hu1, hu2⟩
  obtain ⟨r, hr⟩ := CheckCollision_some E self shape out0 (by omega) hu1 (by omega) hu2
  exact ⟨r, hr, hfun r hr⟩

/-- C2, amended: for polygons of at least 3 vertices, on every exit path
`CheckCollision` returns with the points, the wrap flag, the rotation and the
scale of both shapes as before the call; the positions of both are as before
the call when the wrap repositioning is not triggered (so whenever `wrapAround`
is false) or when both starting positions lie in
`[0,WORLD_WIDTH) × [0,WORLD_HEIGHT)`. The call does return when neither polygon
has more than `2 ^ 32` vertices, the range of the `unsigned int` counter of the
second projection loop. -/
theorem checkCollision_frame (E : Env K) (self shape : CollisionShape K) (out0 : Vector2 K)
    (h1 : 3 ≤ self.points.length) (h2 : 3 ≤ shape.points.length) :
    (∀ r, CheckCollision E self shape out0 = some r →
      r.self.points = self.points ∧ r.self.wrapAround = self.wrapAround ∧
      r.self.world.rot = self.world.rot ∧ r.self.world.scale = self.world.scale ∧
      r.shape.points = shape.points ∧ r.shape.wrapAround = shape.wrapAround ∧
      r.shape.world.rot = shape.world.rot ∧ r.shape.world.scale = shape.world.scale ∧
      ((needsMove E self shape = false ∨
          (InDomain E self.world.pos ∧ InDomain E shape.world.pos)) →
        r.self = self ∧ r.shape = shape)) ∧
    (FitsUInt self.points ∧ FitsUInt shape.points →
      ∃ r, CheckCollision E self shape out0 = some r ∧
        r.self.points = self.points ∧ r.self.wrapAround = self.wrapAround ∧
        r.self.world.rot = self.world.rot ∧ r.self.world.scale = self.world.scale ∧
        r.shape.points = shape.points ∧ r.shape.wrapAround = shape.wrapAround ∧
        r.shape.world.rot = shape.world.rot ∧ r.shape.world.scale = shape.world.scale ∧
        ((needsMove E self shape = false ∨
            (InDomain E self.world.pos ∧ InDomain E shape.world.pos)) →
          r.self = self ∧ r.shape = shape)) := by
  have hfun : ∀ r, CheckCollision E self shape out0 = some r →
      r.self.points = self.points ∧ r.self.wrapAround = self.wrapAround ∧
      r.self.world.rot = self.world.rot ∧ r.self.world.scale = self.world.scale ∧
      r.shape.points = shape.points ∧ r.shape.wrapAround = shape.wrapAround ∧
      r.shape.world.rot = shape.world.rot ∧ r.shape.world.scale = shape.world.scale ∧
      ((needsMove E self shape = false ∨
          (InDomain E self.world.pos ∧ InDomain E shape.world.pos)) →
        r.self = self ∧ r.shape = shape) := by
    intro r hr
    obtain ⟨ret, out, hres⟩ := CheckCollision_result E self shape out0 r hr
    have hA : r.self.points = self.points ∧ r.self.wrapAround = self.wrapAround ∧
        r.self.world.rot = self.world.rot ∧ r.self.world.scale = self.world.scale := by
      rw [hres]
      unfold restoreBoth movedSelf
      split_ifs <;> exact ⟨rfl, rfl, rfl, rfl⟩
    have hB : r.shape.points = shape.points ∧ r.shape.wrapAround = shape.wrapAround ∧
        r.shape.world.rot = shape.world.rot ∧ r.shape.world.scale = shape.world.scale := by
      rw [hres]
      unfold restoreBoth movedShape
      split_ifs <;> exact ⟨rfl, rfl, rfl, rfl⟩
    refine ⟨hA.1, hA.2.1, hA.2.2.1, hA.2.2.2, hB.1, hB.2.1, hB.2.2.1, hB.2.2.2, ?_⟩
    rintro (hm | ⟨hs, ho⟩)
    · rw [hres, restoreBoth_of_noMove E self shape ret out hm]
      exact ⟨rfl, rfl⟩
    · rw [hres, restoreBoth_of_inDomain E self shape ret out hs ho]
      exact ⟨rfl, rfl⟩
  refine ⟨hfun, ?_⟩
  rintro ⟨hu1, hu2⟩
  obtain ⟨r, hr⟩ := CheckCollision_some E self shape out0 (by omega) hu1 (by omega) hu2
  exact ⟨r, hr, hfun r hr⟩

/-- C9: for two shapes whose positions both lie in
`[0,WORLD_WIDTH) × [0,WORLD_HEIGHT)`, every result of `CheckCollision` has both
positions equal to their values before the call, whether or not the wrap
repositioning was triggered and whatever the exit path, and on polygons of at
least 3 and at most `2 ^ 32` vertices (the range of the `unsigned int` counter
of the second projection loop) the call does return; in particular
`RestorePosition` (with
`wrapAround` set) undoes the subtraction of `moveDistance` from the position of
`self` and the subtraction and wrap applied to the position of `shape`. -/
theorem checkCollision_restores_positions (E : Env K) (self shape : CollisionShape K)
    (out0 : Vector2 K)
    (hs : InDomain E self.world.pos) (ho : InDomain E shape.world.pos) :
    (∀ r, CheckCollision E self shape out0 = some r →
      r.self.world.pos = self.world.pos ∧ r.shape.world.pos = shape.world.pos) ∧
    (3 ≤ self.points.length ∧ FitsUInt self.points ∧
        3 ≤ shape.points.length ∧ FitsUInt shape.points →
      ∃ r, CheckCollision E self shape out0 = some r) ∧
    RestorePosition E true self.world.pos (self.world.pos.sub self.world.pos)
      = self.world.pos ∧
    RestorePosition E true self.world.pos
      (WrapVector2 E.WORLD_WIDTH E.WORLD_HEIGHT (shape.world.pos.sub self.world.pos))
      = shape.world.pos := by
  refine ⟨?_, ?_, RestorePosition_self E _ hs, RestorePosition_shape E _ _ ho⟩
  · intro r hr
    obtain ⟨ret, out, hres⟩ := CheckCollision_result E self shape out0 r hr
    rw [hres, restoreBoth_of_inDomain E self shape ret out hs ho]
    exact ⟨rfl, rfl⟩
  · rintro ⟨h1, hf1, h2, hf2⟩
    exact CheckCollision_some E self shape out0 (by omega) hf1 (by omega) hf2

/-- C3, amended: when `CheckCollision` returns true, the resolution vector has a
non-negative dot product with `self.position - other.position` for the positions
the orientation test reads, those in force during the separation test (after
the wrap repositioning when it is applied); when the wrap repositioning is not
triggered these are the positions the caller sees. -/
theorem resolution_points_away (E : Env K) (self shape : CollisionShape K)
    (out0 : Vector2 K) (r : CollisionResult K)
    (h : CheckCollision E self shape out0 = some r) (hret : r.ret = true) :
    0 ≤ Dot r.outResolution
      ((movedSelf E self shape).world.pos.sub (movedShape E self shape).world.pos) ∧
    (needsMove E self shape = false →
      0 ≤ Dot r.outResolution (self.world.pos.sub shape.world.pos)) := by
  have key : 0 ≤ Dot r.outResolution
      ((movedSelf E self shape).world.pos.sub (movedShape E self shape).world.pos) := by
    rcases CheckCollision_cases E self shape out0 r h with
      ⟨_, _, hr⟩ | ⟨_, _, _, _, hr⟩ | ⟨m1, m2, _, _, hr⟩
    · rw [hr] at hret; cases hret
    · rw [hr] at hret; cases hret
    · rw [hr]
      exact orientMtd_dot_nonneg _ _ m1 m2
  refine ⟨key, fun hm => ?_⟩
  rw [movedSelf_of_noMove E self shape hm, movedShape_of_noMove E self shape hm] at key
  exact key

/-- C4, amended: for two shapes `A` and `B` of at least 3 vertices each, when the
wrap repositioning is triggered in neither call (so whenever both `wrapAround`
flags are false), `A.CheckCollision(B)` and `B.CheckCollision(A)` return the
same verdict whenever both return; and both do return when neither polygon has
more than `2 ^ 32` vertices, the range of the `unsigned int` counter of the
second projection loop. -/
theorem verdict_symmetric_without_move (E : Env K) (A B : CollisionShape K)
    (outA outB : Vector2 K)
    (h1 : 3 ≤ A.points.length) (hf1 : FitsSizeT A.points)
    (h2 : 3 ≤ B.points.length) (hf2 : FitsSizeT B.points)
    (hAB : needsMove E A B = false) (hBA : needsMove E B A = false) :
    (∀ r1 r2, CheckCollision E A B outA = some r1 → CheckCollision E B A outB = some r2 →
      r1.ret = r2.ret) ∧
    (FitsUInt A.points ∧ FitsUInt B.points →
      ∃ r1 r2, CheckCollision E A B outA = some r1 ∧ CheckCollision E B A outB = some r2 ∧
        r1.ret = r2.ret) := by
  have hfun : ∀ r1 r2, CheckCollision E A B outA = some r1 →
      CheckCollision E B A outB = some r2 → r1.ret = r2.ret := by
    intro r1 r2 hr1 hr2
    have i1 := CheckCollision_ret_iff E A B outA r1 hf1 hf2 hr1
    have i2 := CheckCollision_ret_iff E B A outB r2 hf2 hf1 hr2
    rw [movedSelf_of_noMove E A B hAB, movedShape_of_noMove E A B hAB] at i1
    rw [movedSelf_of_noMove E B A hBA, movedShape_of_noMove E B A hBA] at i2
    have i12 : r1.ret = true ↔ r2.ret = true := by
      rw [i1, i2]
      exact and_comm
    cases hb1 : r1.ret <;> cases hb2 : r2.ret
    · rfl
    · rw [hb1, hb2] at i12
      exact (i12.mpr rfl)
    · rw [hb1, hb2] at i12
      exact (i12.mp rfl).symm
    · rfl
  refine ⟨hfun, ?_⟩
  rintro ⟨hu1, hu2⟩
  obtain ⟨r1, hr1⟩ := CheckCollision_some E A B outA (by omega) hu1 (by omega) hu2
  obtain ⟨r2, hr2⟩ := CheckCollision_some E B A outB (by omega) hu2 (by omega) hu1
  exact ⟨r1, r2, hr1, hr2, hfun r1 r2 hr1 hr2⟩

end ClaimsB

/-! ## The claims at concrete calls: counterexamples and witnesses -/

section ClaimsC

variable {K : Type} [LinearOrderedField K] [FloorRing K]

/-- The wrap repositioning for `self` at `(1,1)` and `shape` at `(99,99)` in a
world of 100 by 100: it is applied, `self` goes to the origin and `shape` to
`(98,98)`. -/
theorem moved_from_1_to_99 (E : Env K) (hE : SqrtSound E)
    (hW : E.WORLD_WIDTH = 100) (hH : E.WORLD_HEIGHT = 100)
    (pts1 pts2 : List (Vector2 K)) (w2 : Bool) :
    needsMove E ⟨pts1, placedAt ⟨1, 1⟩, true⟩ ⟨pts2, placedAt ⟨99, 99⟩, w2⟩ = true ∧
    movedSelf E ⟨pts1, placedAt ⟨1, 1⟩, true⟩ ⟨pts2, placedAt ⟨99, 99⟩, w2⟩
      = ⟨pts1, placedAt ⟨0, 0⟩, true⟩ ∧
    movedShape E ⟨pts1, placedAt ⟨1, 1⟩, true⟩ ⟨pts2, placedAt ⟨99, 99⟩, w2⟩
      = ⟨pts2, placedAt ⟨98, 98⟩, w2⟩ := by
  have hm : needsMove E ⟨pts1, placedAt ⟨1, 1⟩, true⟩ ⟨pts2, placedAt ⟨99, 99⟩, w2⟩ = true := by
    refine needsMove_of_gap E _ _ rfl ⟨100, 100⟩ (by simp [wrapOffsets, hW, hH]) 3 138
      ?_ ?_ (by norm_num)
    · refine length_le_of_sq E hE _ 3 ?_ (by norm_num) ?_ <;>
        (simp only [placedAt, LengthSquared, Vector2.add, Vector2.sub]; norm_num)
    · unfold distanceBetween
      refine le_length_of_sq E hE _ 138 ?_ ?_ <;>
        (simp only [placedAt, LengthSquared, Vector2.sub]; norm_num)
  have hw : wrapCoord (100 : K) (99 - 1) = 98 := by
    rw [wrapCoord_eval 100 (99 - 1) 0 (by norm_num) (by norm_num) (by norm_num)]
    norm_num
  refine ⟨hm, ?_, ?_⟩
  · unfold movedSelf
    rw [hm]
    simp [placedAt, Vector2.sub]
  · unfold movedShape
    rw [hm]
    simp only [if_true, placedAt, Vector2.sub, WrapVector2, hW, hH, hw]

/-- The closed unit squares at the origin and at `(1/2, 0)`: the call returns true
with the resolution `(-1/2, 0)` and leaves both shapes as they were. -/
theorem checkCollision_closedSquares (E : Env K) (hE : SqrtSound E)
    (hc : E.cos 0 = 1) (hs : E.sin 0 = 0)
    (hW : 1 / 2 < E.WORLD_WIDTH) (hH : 0 < E.WORLD_HEIGHT) (w1 w2 : Bool) (out0 : Vector2 K) :
    CheckCollision E (closedSquareAt ⟨0, 0⟩ w1) (closedSquareAt ⟨1 / 2, 0⟩ w2) out0 =
      some ⟨true, ⟨-1 / 2, 0⟩, closedSquareAt ⟨0, 0⟩ w1, closedSquareAt ⟨1 / 2, 0⟩ w2⟩ := by
  have hp : (⟨1 / 2, 0⟩ : Vector2 K) = Vector2.ofRat ⟨1 / 2, 0⟩ := by simp [Vector2.ofRat]
  unfold closedSquareAt
  rw [unitSquareClosed_ofRat, hp,
    checkCollision_selfAtOrigin E hE hc hs unitSquareClosed unitSquareClosed ⟨1 / 2, 0⟩
      ⟨-1 / 2, 0⟩ ⟨-1 / 2, 0⟩ w1 w2 out0
      (by simp only [InDomain]; exact ⟨le_refl _, by linarith, le_refl _, hH⟩)
      (by simp only [InDomain, Vector2.ofRat]; norm_num; exact ⟨hW, hH⟩)
      (by decide) (by simp [unitSquareClosed]) (by decide) (by simp [unitSquareClosed])
      (by decide!) (by decide!)]
  have ho : orientMtd
      (CollisionShape.mk ((unitSquareClosed : List (Vector2 ℚ)).map Vector2.ofRat)
        (placedAt (⟨0, 0⟩ : Vector2 K)) w1)
      (CollisionShape.mk ((unitSquareClosed : List (Vector2 ℚ)).map Vector2.ofRat)
        (placedAt (Vector2.ofRat ⟨1 / 2, 0⟩)) w2)
      (Vector2.ofRat ⟨-1 / 2, 0⟩) (Vector2.ofRat ⟨-1 / 2, 0⟩) = ⟨-1 / 2, 0⟩ := by
    simp only [orientMtd, LengthSquared, Dot, Vector2.ofRat, Vector2.sub, Vector2.neg, placedAt]
    norm_num
  rw [ho]

/-- The unit squares given by their four corners, at the origin and at
`(1/2, 0)`: the call returns true with the resolution `(-1/4, 1/4)`. -/
theorem checkCollision_cornerSquares (E : Env K) (hE : SqrtSound E)
    (hc : E.cos 0 = 1) (hs : E.sin 0 = 0)
    (hW : 1 / 2 < E.WORLD_WIDTH) (hH : 0 < E.WORLD_HEIGHT) (out0 : Vector2 K) :
    CheckCollision E (squareAt ⟨0, 0⟩) (squareAt ⟨1 / 2, 0⟩) out0 =
      some ⟨true, ⟨-1 / 4, 1 / 4⟩, squareAt ⟨0, 0⟩, squareAt ⟨1 / 2, 0⟩⟩ := by
  have hp : (⟨1 / 2, 0⟩ : Vector2 K) = Vector2.ofRat ⟨1 / 2, 0⟩ := by simp [Vector2.ofRat]
  unfold squareAt
  rw [unitSquare_ofRat, hp,
    checkCollision_selfAtOrigin E hE hc hs unitSquare unitSquare ⟨1 / 2, 0⟩
      ⟨1 / 4, -1 / 4⟩ ⟨1 / 4, -1 / 4⟩ true true out0
      (by simp only [InDomain]; exact ⟨le_refl _, by linarith, le_refl _, hH⟩)
      (by simp only [InDomain, Vector2.ofRat]; norm_num; exact ⟨hW, hH⟩)
      (by decide) (by simp [unitSquare]) (by decide) (by simp [unitSquare])
      (by decide!) (by decide!)]
  have ho : orientMtd
      (CollisionShape.mk ((unitSquare : List (Vector2 ℚ)).map Vector2.ofRat)
        (placedAt (⟨0, 0⟩ : Vector2 K)) true)
      (CollisionShape.mk ((unitSquare : List (Vector2 ℚ)).map Vector2.ofRat)
        (placedAt (Vector2.ofRat ⟨1 / 2, 0⟩)) true)
      (Vector2.ofRat ⟨1 / 4, -1 / 4⟩) (Vector2.ofRat ⟨1 / 4, -1 / 4⟩) = ⟨-1 / 4, 1 / 4⟩ := by
    simp only [orientMtd, LengthSquared, Dot, Vector2.ofRat, Vector2.sub, Vector2.neg, placedAt]
    norm_num
  rw [ho]

end ClaimsC

/-- C1, amended, at a concrete input: the triangles `triA` and `triB` in the real
numbers (no wrap). -/
theorem checkCollision_iff_no_separating_axis_witness :
    ∃ r, CheckCollision (Env.mk Real.sqrt Real.cos Real.sin 100 100) triA triB ⟨0, 0⟩ = some r ∧
      (r.ret = true ↔
        ∀ axis ∈
            edgeNormals ((triA : CollisionShape ℝ).GetTransformedPoints
              (Env.mk Real.sqrt Real.cos Real.sin 100 100)).dropLast ++
            edgeNormals ((triB : CollisionShape ℝ).GetTransformedPoints
              (Env.mk Real.sqrt Real.cos Real.sin 100 100)).dropLast,
          ¬ Separates axis
            ((triA : CollisionShape ℝ).GetTransformedPoints
              (Env.mk Real.sqrt Real.cos Real.sin 100 100)).dropLast
            ((triB : CollisionShape ℝ).GetTransformedPoints
              (Env.mk Real.sqrt Real.cos Real.sin 100 100)).dropLast) :=
  (checkCollision_iff_no_separating_axis _ (real_sqrtSound _ _ _ _) triA triB ⟨0, 0⟩
    (by simp [triA, triangleA]) (by simp [FitsSizeT, triA, triangleA])
    (by simp [triB, triangleB]) (by simp [FitsSizeT, triB, triangleB])
    (needsMove_false_of_noWrap _ _ _ rfl)).2
    ⟨by simp [FitsUInt, triA, triangleA], by simp [FitsUInt, triB, triangleB]⟩

/-- C8, at a concrete input: on the bars `barH` and `barV` the routine returns
false with `outMtd = (0, 3)`. -/
theorem outMtd_least_recorded_candidate_witness :
    edgeLoop (Env.mk Real.sqrt Real.cos Real.sin 100 100) barH barV
        (sizeMinusOne (barH : List (Vector2 ℝ)).length) 0 [] =
      some (false, recordedCandidates (Env.mk Real.sqrt Real.cos Real.sin 100 100) barH barV) ∧
    (⟨0, 3⟩ : Vector2 ℝ) ∈
        recordedCandidates (Env.mk Real.sqrt Real.cos Real.sin 100 100) barH barV ∧
    ∀ c ∈ recordedCandidates (Env.mk Real.sqrt Real.cos Real.sin 100 100) barH barV,
      LengthSquared (⟨0, 3⟩ : Vector2 ℝ) ≤ LengthSquared c :=
  outMtd_least_recorded_candidate (Env.mk Real.sqrt Real.cos Real.sin 100 100) barH barV
    ⟨0, 0⟩ ⟨0, 3⟩ (by simp [FitsSizeT, FitsUInt, barH]) (by simp [FitsSizeT, FitsUInt, barV])
    (by
      have h3 : (⟨0, 3⟩ : Vector2 ℝ) = Vector2.ofRat ⟨0, 3⟩ := by simp [Vector2.ofRat]
      rw [CheckPointListSeperability_eq_satRaw _ (real_sqrtSound _ _ _ _) _ _ _
          (by simp [barH]) (by simp [FitsSizeT, FitsUInt, barH]) (by simp [barV])
          (by simp [FitsSizeT, FitsUInt, barV]),
        barH_ofRat, barV_ofRat, zero_ofRat, satRaw_ofRat, h3,
        show satRaw (barH : List (Vector2 ℚ)) barV ⟨0, 0⟩ = some (false, ⟨0, 3⟩) from by decide!]
      rfl)

/-- C2 fails as worded, for a starting position outside the domain: with `self`
at `(10, 0)` and `shape` at `(150, 0)` in a world of 100 by 100 (`wrapAround` on)
the wrap repositioning is applied, and `RestorePosition`, which wraps what it
restores, leaves `shape` at `(50, 0)`. -/
theorem checkCollision_moves_far_shape :
    ∃ r, CheckCollision (Env.mk Real.sqrt Real.cos Real.sin 100 100) triNear triFar ⟨0, 0⟩
        = some r ∧
      r.shape.world.pos = ⟨50, 0⟩ ∧
      r.shape.world.pos ≠ (triFar : CollisionShape ℝ).world.pos := by
  have hE := real_sqrtSound Real.cos Real.sin 100 100
  have hm : needsMove (Env.mk Real.sqrt Real.cos Real.sin 100 100) triNear triFar = true := by
    refine needsMove_of_gap _ _ _ rfl ⟨100, 0⟩ (by simp [wrapOffsets]) 40 140 ?_ ?_
      (by norm_num)
    · refine length_le_of_sq _ hE _ 40 ?_ (by norm_num) ?_ <;>
        (simp only [triNear, triFar, placedAt, LengthSquared, Vector2.add, Vector2.sub]
         norm_num)
    · unfold distanceBetween
      refine le_length_of_sq _ hE _ 140 ?_ ?_ <;>
        (simp only [triNear, triFar, placedAt, LengthSquared, Vector2.sub]; norm_num)
  obtain ⟨r, hr⟩ := CheckCollision_some (Env.mk Real.sqrt Real.cos Real.sin 100 100)
    triNear triFar ⟨0, 0⟩ (by simp [triNear, triangleA])
    (by simp [FitsSizeT, FitsUInt, triNear, triangleA]) (by simp [triFar, triangleA])
    (by simp [FitsSizeT, FitsUInt, triFar, triangleA])
  obtain ⟨ret, out, hres⟩ := CheckCollision_result _ _ _ _ r hr
  have hx : wrapCoord (100 : ℝ) (150 - 10) = 40 := by
    rw [wrapCoord_eval 100 (150 - 10) 1 (by norm_num) (by norm_num) (by norm_num)]
    norm_num
  have hy : wrapCoord (100 : ℝ) (0 - 0) = 0 := by
    rw [wrapCoord_eval 100 (0 - 0) 0 (by norm_num) (by norm_num) (by norm_num)]
    norm_num
  have hx2 : wrapCoord (100 : ℝ) (40 + 10) = 50 := by
    rw [wrapCoord_eval 100 (40 + 10) 0 (by norm_num) (by norm_num) (by norm_num)]
    norm_num
  have hy2 : wrapCoord (100 : ℝ) (0 + 0) = 0 := by
    rw [wrapCoord_eval 100 (0 + 0) 0 (by norm_num) (by norm_num) (by norm_num)]
    norm_num
  have hd : distanceSquared (⟨10, 0⟩ : Vector2 ℝ) ⟨0, 0⟩ ≠ 0 := by
    simp only [distanceSquared, LengthSquared, Vector2.sub]
    norm_num
  have hpos : r.shape.world.pos = ⟨50, 0⟩ := by
    rw [hres]
    unfold restoreBoth moveDistanceOf movedSelf movedShape RestorePosition
    rw [hm]
    simp only [if_true, triNear, triFar, placedAt, Vector2.sub, Vector2.add, WrapVector2,
      hx, hy, hd, ne_eq, not_false_eq_true, hx2, hy2]
  refine ⟨r, hr, hpos, ?_⟩
  rw [hpos]
  intro h
  have := congrArg Vector2.x h
  simp only [triFar, placedAt] at this
  norm_num at this

/-- C2, amended, at a concrete input: the bars at `(99,99)` and `(1,1)`. -/
theorem checkCollision_frame_witness :
    ∃ r, CheckCollision (Env.mk Real.sqrt Real.cos Real.sin 100 100) barSelf (barOther true)
        ⟨0, 0⟩ = some r ∧
      r.self.points = (barSelf : CollisionShape ℝ).points ∧
      r.self.wrapAround = (barSelf : CollisionShape ℝ).wrapAround ∧
      r.self.world.rot = (barSelf : CollisionShape ℝ).world.rot ∧
      r.self.world.scale = (barSelf : CollisionShape ℝ).world.scale ∧
      r.shape.points = (barOther true : CollisionShape ℝ).points ∧
      r.shape.wrapAround = (barOther true : CollisionShape ℝ).wrapAround ∧
      r.shape.world.rot = (barOther true : CollisionShape ℝ).world.rot ∧
      r.shape.world.scale = (barOther true : CollisionShape ℝ).world.scale ∧
      ((needsMove (Env.mk Real.sqrt Real.cos Real.sin 100 100) barSelf (barOther true) = false ∨
          (InDomain (Env.mk Real.sqrt Real.cos Real.sin 100 100)
              (barSelf : CollisionShape ℝ).world.pos ∧
            InDomain (Env.mk Real.sqrt Real.cos Real.sin 100 100)
              (barOther true : CollisionShape ℝ).world.pos)) →
        r.self = barSelf ∧ r.shape = barOther true) :=
  (checkCollision_frame _ barSelf (barOther true) ⟨0, 0⟩
    (by simp [barSelf, barH]) (by simp [barOther, barV])).2
    ⟨by simp [FitsUInt, barSelf, barH], by simp [FitsUInt, barOther, barV]⟩

/-- C9, at a concrete input: the bars at `(99,99)` and `(1,1)` in a world of 100 by
100, a call in which the wrap repositioning is applied. -/
theorem checkCollision_restores_positions_witness :
    (∀ r, CheckCollision (Env.mk Real.sqrt Real.cos Real.sin 100 100) barSelf (barOther true)
        ⟨0, 0⟩ = some r →
      r.self.world.pos = (barSelf : CollisionShape ℝ).world.pos ∧
      r.shape.world.pos = (barOther true : CollisionShape ℝ).world.pos) ∧
    (3 ≤ (barSelf : CollisionShape ℝ).points.length ∧
        FitsUInt (barSelf : CollisionShape ℝ).points ∧
        3 ≤ (barOther true : CollisionShape ℝ).points.length ∧
        FitsUInt (barOther true : CollisionShape ℝ).points →
      ∃ r, CheckCollision (Env.mk Real.sqrt Real.cos Real.sin 100 100) barSelf
        (barOther true) ⟨0, 0⟩ = some r) ∧
    RestorePosition (Env.mk Real.sqrt Real.cos Real.sin 100 100) true
      (barSelf : CollisionShape ℝ).world.pos
      ((barSelf : CollisionShape ℝ).world.pos.sub (barSelf : CollisionShape ℝ).world.pos)
      = (barSelf : CollisionShape ℝ).world.pos ∧
    RestorePosition (Env.mk Real.sqrt Real.cos Real.sin 100 100) true
      (barSelf : CollisionShape ℝ).world.pos
      (WrapVector2 (100 : ℝ) 100
        ((barOther true : CollisionShape ℝ).world.pos.sub
          (barSelf : CollisionShape ℝ).world.pos))
      = (barOther true : CollisionShape ℝ).world.pos :=
  checkCollision_restores_positions _ barSelf (barOther true) ⟨0, 0⟩
    (by simp only [InDomain, barSelf, placedAt]; norm_num)
    (by simp only [InDomain, barOther, placedAt]; norm_num)

/-- C3 fails as worded, in a call with wrap repositioning: for the bar `barH` at
`(99,99)` and the bar `barV` at `(1,1)` in a world of 100 by 100 the call returns
true, leaves both shapes where they were, and writes the resolution `(-1, 0)`,
whose dot product with `self.position - other.position = (98, 98)` is negative. -/
theorem resolution_against_caller_positions :
    ∃ r, CheckCollision (Env.mk Real.sqrt Real.cos Real.sin 100 100) barSelf (barOther true)
        ⟨0, 0⟩ = some r ∧
      r.ret = true ∧ r.self = barSelf ∧ r.shape = barOther true ∧
      needsMove (Env.mk Real.sqrt Real.cos Real.sin 100 100) barSelf (barOther true) = true ∧
      Dot r.outResolution
        ((barSelf : CollisionShape ℝ).world.pos.sub (barOther true : CollisionShape ℝ).world.pos)
        < 0 := by
  obtain ⟨hm, _, _, hcc⟩ := checkCollision_bars (Env.mk Real.sqrt Real.cos Real.sin 100 100)
    (real_sqrtSound _ _ _ _) Real.cos_zero Real.sin_zero rfl rfl true ⟨0, 0⟩
  refine ⟨_, hcc, rfl, rfl, rfl, hm, ?_⟩
  simp only [Dot, barSelf, barOther, placedAt, Vector2.sub]
  norm_num

/-- C3, amended, at a concrete input: the closed unit squares at the origin and at
`(1/2, 0)`, where the call returns true with the resolution `(-1/2, 0)`. -/
theorem resolution_points_away_witness :
    0 ≤ Dot (⟨-1 / 2, 0⟩ : Vector2 ℝ)
      ((movedSelf (Env.mk Real.sqrt Real.cos Real.sin 100 100)
          (closedSquareAt ⟨0, 0⟩ true) (closedSquareAt ⟨1 / 2, 0⟩ true)).world.pos.sub
        (movedShape (Env.mk Real.sqrt Real.cos Real.sin 100 100)
          (closedSquareAt ⟨0, 0⟩ true) (closedSquareAt ⟨1 / 2, 0⟩ true)).world.pos) ∧
    (needsMove (Env.mk Real.sqrt Real.cos Real.sin 100 100)
        (closedSquareAt ⟨0, 0⟩ true) (closedSquareAt ⟨1 / 2, 0⟩ true) = false →
      0 ≤ Dot (⟨-1 / 2, 0⟩ : Vector2 ℝ)
        ((closedSquareAt ⟨0, 0⟩ true : CollisionShape ℝ).world.pos.sub
          (closedSquareAt ⟨1 / 2, 0⟩ true : CollisionShape ℝ).world.pos)) :=
  resolution_points_away (Env.mk Real.sqrt Real.cos Real.sin 100 100)
    (closedSquareAt ⟨0, 0⟩ true) (closedSquareAt ⟨1 / 2, 0⟩ true) ⟨0, 0⟩
    ⟨true, ⟨-1 / 2, 0⟩, closedSquareAt ⟨0, 0⟩ true, closedSquareAt ⟨1 / 2, 0⟩ true⟩
    (checkCollision_closedSquares _ (real_sqrtSound _ _ _ _) Real.cos_zero Real.sin_zero
      (by norm_num) (by norm_num) true true ⟨0, 0⟩)
    rfl

/-- C4 fails as worded. With different `wrapAround` flags: for the bar `barH` at
`(99,99)` (flag on) and the bar `barV` at `(1,1)` (flag off) in a world of 100 by
100, `A.CheckCollision(B)` returns true and `B.CheckCollision(A)` returns false.
With both flags on the two calls both reposition and still differ: the first
sees `B` at `(2,2)` from `A`, the second sees `A` at `(98,98)` from `B`. -/
theorem verdict_differs_with_flags :
    (∃ r1 r2,
      CheckCollision (Env.mk Real.sqrt Real.cos Real.sin 100 100) barSelf (barOther false)
        ⟨0, 0⟩ = some r1 ∧
      CheckCollision (Env.mk Real.sqrt Real.cos Real.sin 100 100) (barOther false) barSelf
        ⟨0, 0⟩ = some r2 ∧
      r1.ret = true ∧ r2.ret = false) ∧
    (∃ r1 r2,
      CheckCollision (Env.mk Real.sqrt Real.cos Real.sin 100 100) barSelf (barOther true)
        ⟨0, 0⟩ = some r1 ∧
      CheckCollision (Env.mk Real.sqrt Real.cos Real.sin 100 100) (barOther true) barSelf
        ⟨0, 0⟩ = some r2 ∧
      r1.ret = true ∧ r2.ret = false) := by
  have hE := real_sqrtSound Real.cos Real.sin 100 100
  obtain ⟨_, _, _, hcc⟩ := checkCollision_bars (Env.mk Real.sqrt Real.cos Real.sin 100 100)
    hE Real.cos_zero Real.sin_zero rfl rfl false ⟨0, 0⟩
  obtain ⟨_, _, _, hcc2⟩ := checkCollision_bars (Env.mk Real.sqrt Real.cos Real.sin 100 100)
    hE Real.cos_zero Real.sin_zero rfl rfl true ⟨0, 0⟩
  have hm : needsMove (Env.mk Real.sqrt Real.cos Real.sin 100 100) (barOther false) barSelf
      = false := needsMove_false_of_noWrap _ _ _ rfl
  have h1 : (⟨1, 1⟩ : Vector2 ℝ) = Vector2.ofRat ⟨1, 1⟩ := by simp [Vector2.ofRat]
  have h99 : (⟨99, 99⟩ : Vector2 ℝ) = Vector2.ofRat ⟨99, 99⟩ := by simp [Vector2.ofRat]
  have h98 : (⟨98, 98⟩ : Vector2 ℝ) = Vector2.ofRat ⟨98, 98⟩ := by simp [Vector2.ofRat]
  have hrev := CheckCollision_of_sat (Env.mk Real.sqrt Real.cos Real.sin 100 100)
    hE (barOther false) barSelf ⟨0, 0⟩
    ((barV : List (Vector2 ℚ)).map (fun p => p.add ⟨1, 1⟩))
    ((barH : List (Vector2 ℚ)).map (fun p => p.add ⟨99, 99⟩))
    (by
      rw [movedSelf_of_noMove _ _ _ hm]
      unfold barOther
      rw [barV_ofRat, h1]
      exact GetTransformedPoints_placed _ Real.cos_zero Real.sin_zero _ _ _)
    (by
      rw [movedShape_of_noMove _ _ _ hm]
      unfold barSelf
      rw [barH_ofRat, h99]
      exact GetTransformedPoints_placed _ Real.cos_zero Real.sin_zero _ _ _)
    (by decide) (by simp [barV]) (by decide) (by simp [barH])
  rw [show satRaw ((barV : List (Vector2 ℚ)).map (fun p => p.add ⟨1, 1⟩))
      ((barH : List (Vector2 ℚ)).map (fun p => p.add ⟨99, 99⟩)) ⟨0, 0⟩
      = some (true, ⟨0, 0⟩) from by decide!] at hrev
  obtain ⟨_, hself, hshape⟩ := moved_from_1_to_99 (Env.mk Real.sqrt Real.cos Real.sin 100 100)
    hE rfl rfl (barV : List (Vector2 ℝ)) barH true
  have hrev2 := CheckCollision_of_sat (Env.mk Real.sqrt Real.cos Real.sin 100 100)
    hE (barOther true) barSelf ⟨0, 0⟩
    ((barV : List (Vector2 ℚ)).map (fun p => p.add ⟨0, 0⟩))
    ((barH : List (Vector2 ℚ)).map (fun p => p.add ⟨98, 98⟩))
    (by
      unfold barOther barSelf
      rw [hself, barV_ofRat, zero_ofRat]
      exact GetTransformedPoints_placed _ Real.cos_zero Real.sin_zero _ _ _)
    (by
      unfold barOther barSelf
      rw [hshape, barH_ofRat, h98]
      exact GetTransformedPoints_placed _ Real.cos_zero Real.sin_zero _ _ _)
    (by decide) (by simp [barV]) (by decide) (by simp [barH])
  rw [show satRaw ((barV : List (Vector2 ℚ)).map (fun p => p.add ⟨0, 0⟩))
      ((barH : List (Vector2 ℚ)).map (fun p => p.add ⟨98, 98⟩)) ⟨0, 0⟩
      = some (true, ⟨0, 0⟩) from by decide!] at hrev2
  exact ⟨⟨_, _, hcc, hrev, rfl, rfl⟩, ⟨_, _, hcc2, hrev2, rfl, rfl⟩⟩

/-- C4, amended, at a concrete input: the triangles `triA` and `triB`, both with
`wrapAround` off. -/
theorem verdict_symmetric_without_move_witness :
    ∃ r1 r2,
      CheckCollision (Env.mk Real.sqrt Real.cos Real.sin 100 100) triA triB ⟨0, 0⟩ = some r1 ∧
      CheckCollision (Env.mk Real.sqrt Real.cos Real.sin 100 100) triB triA ⟨0, 0⟩ = some r2 ∧
      r1.ret = r2.ret :=
  (verdict_symmetric_without_move _ triA triB ⟨0, 0⟩ ⟨0, 0⟩
    (by simp [triA, triangleA]) (by simp [FitsSizeT, triA, triangleA])
    (by simp [triB, triangleB]) (by simp [FitsSizeT, triB, triangleB])
    (needsMove_false_of_noWrap _ _ _ rfl) (needsMove_false_of_noWrap _ _ _ rfl)).2
    ⟨by simp [FitsUInt, triA, triangleA], by simp [FitsUInt, triB, triangleB]⟩

section ClaimsD

variable {K : Type} [LinearOrderedField K] [FloorRing K]

/-- The wrap repositioning for `self` at `(99,99)` and `shape` at `(1,1)` in a
world of 100 by 100: it is applied, `self` goes to the origin and `shape` to
`(2,2)`. -/
theorem moved_from_99_to_1 (E : Env K) (hE : SqrtSound E)
    (hW : E.WORLD_WIDTH = 100) (hH : E.WORLD_HEIGHT = 100)
    (pts1 pts2 : List (Vector2 K)) (w2 : Bool) :
    needsMove E ⟨pts1, placedAt ⟨99, 99⟩, true⟩ ⟨pts2, placedAt ⟨1, 1⟩, w2⟩ = true ∧
    movedSelf E ⟨pts1, placedAt ⟨99, 99⟩, true⟩ ⟨pts2, placedAt ⟨1, 1⟩, w2⟩
      = ⟨pts1, placedAt ⟨0, 0⟩, true⟩ ∧
    movedShape E ⟨pts1, placedAt ⟨99, 99⟩, true⟩ ⟨pts2, placedAt ⟨1, 1⟩, w2⟩
      = ⟨pts2, placedAt ⟨2, 2⟩, w2⟩ := by
  have hm : needsMove E ⟨pts1, placedAt ⟨99, 99⟩, true⟩ ⟨pts2, placedAt ⟨1, 1⟩, w2⟩ = true := by
    refine needsMove_of_gap E _ _ rfl ⟨-100, -100⟩ (by simp [wrapOffsets, hW, hH]) 3 138
      ?_ ?_ (by norm_num)
    · refine length_le_of_sq E hE _ 3 ?_ (by norm_num) ?_ <;>
        (simp only [placedAt, LengthSquared, Vector2.add, Vector2.sub]; norm_num)
    · unfold distanceBetween
      refine le_length_of_sq E hE _ 138 ?_ ?_ <;>
        (simp only [placedAt, LengthSquared, Vector2.sub]; norm_num)
  have hw : wrapCoord (100 : K) (1 - 99) = 2 := by
    rw [wrapCoord_eval 100 (1 - 99) (-1) (by norm_num) (by norm_num) (by norm_num)]
    norm_num
  refine ⟨hm, ?_, ?_⟩
  · unfold movedSelf
    rw [hm]
    simp [placedAt, Vector2.sub]
  · unfold movedShape
    rw [hm]
    simp only [if_true, placedAt, Vector2.sub, WrapVector2, hW, hH, hw]

omit [FloorRing K] in
theorem squareAt_points_shift (E : Env K) (hc : E.cos 0 = 1) (hs : E.sin 0 = 0)
    (a d : Vector2 K) (w1 w2 : Bool) :
    (CollisionShape.mk unitSquare (placedAt (a.add d)) w2).GetTransformedPoints E =
      ((CollisionShape.mk unitSquare (placedAt a) w1).GetTransformedPoints E).map
        (fun p => p.add d) := by
  simp only [CollisionShape.GetTransformedPoints, World.TransformPoint, placedAt, hc, hs,
    unitSquare, List.map, Vector2.add]
  simp only [mul_one, mul_zero, one_mul, sub_zero, zero_add, add_zero, add_assoc]

/-- C6, amended: for two axis-aligned unit squares given as closed outlines (the
four corners, then the first corner again), identity rotation and scale, `self`
centred at `(0,0)` and `other` at `(1/2,0)`, in a world wider than `1/2` and with
a sound square root, `CheckCollision` returns true and the resolution vector is
`(-1/2, 0)`: its length is `1/2` and its y component is 0. -/
theorem closed_squares_resolution (E : Env K) (hE : SqrtSound E)
    (hc : E.cos 0 = 1) (hs : E.sin 0 = 0)
    (hW : 1 / 2 < E.WORLD_WIDTH) (hH : 0 < E.WORLD_HEIGHT) (w1 w2 : Bool) (out0 : Vector2 K) :
    ∃ r, CheckCollision E (closedSquareAt ⟨0, 0⟩ w1) (closedSquareAt ⟨1 / 2, 0⟩ w2) out0
        = some r ∧
      r.ret = true ∧ r.outResolution = ⟨-1 / 2, 0⟩ ∧ r.outResolution.y = 0 ∧
      Length E r.outResolution = 1 / 2 := by
  refine ⟨_, checkCollision_closedSquares E hE hc hs hW hH w1 w2 out0, rfl, rfl, rfl, ?_⟩
  unfold Length
  refine sqrt_eq_of_sq E hE _ (1 / 2) (by norm_num) ?_
  simp only [LengthSquared]
  norm_num

end ClaimsD

/-- C6, amended, at a concrete input: the real numbers, a world of 100 by 100, both
`wrapAround` flags on. -/
theorem closed_squares_resolution_witness :
    ∃ r, CheckCollision (Env.mk Real.sqrt Real.cos Real.sin 100 100)
        (closedSquareAt ⟨0, 0⟩ true) (closedSquareAt ⟨1 / 2, 0⟩ true) ⟨0, 0⟩ = some r ∧
      r.ret = true ∧ r.outResolution = ⟨-1 / 2, 0⟩ ∧ r.outResolution.y = 0 ∧
      Length (Env.mk Real.sqrt Real.cos Real.sin 100 100) r.outResolution = 1 / 2 :=
  closed_squares_resolution _ (real_sqrtSound _ _ _ _) Real.cos_zero Real.sin_zero
    (by norm_num) (by norm_num) true true ⟨0, 0⟩

/-- C6 fails as worded, for the unit squares given by their four corners
`(-1/2,-1/2), (1/2,-1/2), (1/2,1/2), (-1/2,1/2)`: the call returns true with the
resolution `(-1/4, 1/4)`, which is not parallel to the x-axis and whose length is
not `1/2`. -/
theorem corner_squares_resolution_diagonal :
    ∃ r, CheckCollision (Env.mk Real.sqrt Real.cos Real.sin 100 100)
        (squareAt ⟨0, 0⟩) (squareAt ⟨1 / 2, 0⟩) ⟨0, 0⟩ = some r ∧
      r.ret = true ∧ r.outResolution = ⟨-1 / 4, 1 / 4⟩ ∧ r.outResolution.y ≠ 0 ∧
      Length (Env.mk Real.sqrt Real.cos Real.sin 100 100) r.outResolution ≠ 1 / 2 := by
  refine ⟨_, checkCollision_cornerSquares _ (real_sqrtSound _ _ _ _) Real.cos_zero
    Real.sin_zero (by norm_num) (by norm_num) ⟨0, 0⟩, rfl, rfl, ?_, ?_⟩
  · norm_num
  · intro h
    have hsq := (real_sqrtSound Real.cos Real.sin 100 100
      (LengthSquared (⟨-1 / 4, 1 / 4⟩ : Vector2 ℝ)) (by simp only [LengthSquared]; norm_num)).2
    unfold Length at h
    simp only [] at h hsq
    rw [h] at hsq
    simp only [LengthSquared] at hsq
    norm_num at hsq

/-- The wrap repositioning with `WrapVector2` as the spec words it, a reduction
into `[0,100) × [0,100)` (the helper is not in the translated file): for `self`
at `(1,1)` and `other` at `(99,99)` (world 100 by 100, `wrapAround` on) the
vertices of `other` are those of `self` moved by `(98,98)`, the reduction of
`(98,98)`; with the roles exchanged they are those of `self` moved by `(2,2)`.
Under a reduction into a domain centred on the origin the first displacement
would be `(-2,-2)`: the displacement of that call is decided by the helper. -/
theorem wrap_repositioning_displacement :
    (movedShape (Env.mk Real.sqrt Real.cos Real.sin 100 100)
        (squareAt ⟨1, 1⟩) (squareAt ⟨99, 99⟩)).GetTransformedPoints
        (Env.mk Real.sqrt Real.cos Real.sin 100 100) =
      ((movedSelf (Env.mk Real.sqrt Real.cos Real.sin 100 100)
        (squareAt ⟨1, 1⟩) (squareAt ⟨99, 99⟩)).GetTransformedPoints
        (Env.mk Real.sqrt Real.cos Real.sin 100 100)).map (fun p => p.add ⟨98, 98⟩) ∧
    (movedShape (Env.mk Real.sqrt Real.cos Real.sin 100 100)
        (squareAt ⟨99, 99⟩) (squareAt ⟨1, 1⟩)).GetTransformedPoints
        (Env.mk Real.sqrt Real.cos Real.sin 100 100) =
      ((movedSelf (Env.mk Real.sqrt Real.cos Real.sin 100 100)
        (squareAt ⟨99, 99⟩) (squareAt ⟨1, 1⟩)).GetTransformedPoints
        (Env.mk Real.sqrt Real.cos Real.sin 100 100)).map (fun p => p.add ⟨2, 2⟩) := by
  obtain ⟨_, hself, hshape⟩ := moved_from_1_to_99 (Env.mk Real.sqrt Real.cos Real.sin 100 100)
    (real_sqrtSound _ _ _ _) rfl rfl (unitSquare : List (Vector2 ℝ)) unitSquare true
  obtain ⟨_, hself2, hshape2⟩ := moved_from_99_to_1 (Env.mk Real.sqrt Real.cos Real.sin 100 100)
    (real_sqrtSound _ _ _ _) rfl rfl (unitSquare : List (Vector2 ℝ)) unitSquare true
  have e98 : (⟨98, 98⟩ : Vector2 ℝ) = Vector2.add ⟨0, 0⟩ ⟨98, 98⟩ := by simp [Vector2.add]
  have e2 : (⟨2, 2⟩ : Vector2 ℝ) = Vector2.add ⟨0, 0⟩ ⟨2, 2⟩ := by simp [Vector2.add]
  unfold squareAt
  rw [hself, hshape, hself2, hshape2]
  constructor
  · nth_rewrite 1 [e98]
    exact squareAt_points_shift _ Real.cos_zero Real.sin_zero _ _ true true
  · nth_rewrite 1 [e2]
    exact squareAt_points_shift _ Real.cos_zero Real.sin_zero _ _ true true

end Asteroids
